import Mathlib

/-!
# Verification of the ewoms nonlinear/well-coupling core

Shallow embedding, over `ℚ`, of the algorithmic control logic of
`opm/autodiff/BlackoilModelEbos.hpp`, `opm/autodiff/StandardWellsDense_impl.hpp`
and `opm/simulators/timestepping/AdaptiveTimeStepping_impl.hpp`, together with
theorems settling the specification claims about them.

External collaborators (the grid simulator / linearizer, the PVT fluid system,
the VFP tables, the linear solver) are modelled as parameters, exactly at the
interface points where the source calls out to them.
-/

namespace Ewoms

/-! ## Well-state update: fraction variables (`StandardWellsDense::updateWellState`)

Embeds the per-well fraction-variable update and the sequential
negative-fraction renormalization of `updateWellState`
(`StandardWellsDense_impl.hpp`, lines 1329-1432). -/

/-- Flags and limits of the well model: `active_[Water]`, `active_[Gas]`,
`has_solvent_`, `dWellFractionMax()` and `dbhpMaxRel()`. Oil is always active
(the source asserts `active_[Oil]`). -/
structure WellFlagCfg where
  activeWater : Bool
  activeGas : Bool
  hasSolvent : Bool
  dFLimit : ℚ
  dBHPLimit : ℚ
deriving DecidableEq

/-- `std::abs` (kernel-evaluable; equal to Mathlib's `|·|` by `qabs_eq_abs`). -/
def qabs (x : ℚ) : ℚ := if x < 0 then -x else x

/-- `std::min(a, b)`, which returns `b < a ? b : a`. -/
def qmin (a b : ℚ) : ℚ := if b < a then b else a

/-- `std::max(a, b)`, which returns `a < b ? b : a`. -/
def qmax (a b : ℚ) : ℚ := if a < b then b else a

lemma qabs_eq_abs (x : ℚ) : qabs x = |x| := by
  unfold qabs
  rcases lt_trichotomy x 0 with h | h | h
  · rw [if_pos h, abs_of_neg h]
  · simp [h]
  · rw [if_neg (not_lt.mpr h.le), abs_of_pos h]

lemma qmin_eq_min (a b : ℚ) : qmin a b = min a b := by
  unfold qmin
  rcases lt_or_le b a with h | h
  · rw [if_pos h, min_eq_right h.le]
  · rw [if_neg (not_lt.mpr h), min_eq_left h]

lemma qmax_eq_max (a b : ℚ) : qmax a b = max a b := by
  unfold qmax
  rcases lt_or_le a b with h | h
  · rw [if_pos h, max_eq_right h.le]
  · rw [if_neg (not_lt.mpr h), max_eq_left h]

/-- `sign(d) * min(|d|, lim)`: the `sign * std::min(std::abs(d), limit)`
pattern used for the limited updates (note `sign(0) = -1`, as in the source's
`d > 0 ? 1 : -1`). -/
def clampAbs (d lim : ℚ) : ℚ := (if d > 0 then 1 else -1) * qmin (qabs d) lim

/-- The local fraction vector `F` of `updateWellState`: water, gas, solvent
and oil entries. -/
structure WellFracs where
  fw : ℚ
  fg : ℚ
  fs : ℚ
  fo : ℚ
deriving DecidableEq

def WellFracs.sum (F : WellFracs) : ℚ := F.fw + F.fg + F.fs + F.fo

/-- `if (F[Water] < 0.0) { ... }`: divide the other fractions by
`1 - F[Water]` (each division guarded by its activity flag, as in the source)
and zero the water fraction. -/
def renormWater (cfg : WellFlagCfg) (F : WellFracs) : WellFracs :=
  if cfg.activeWater = true ∧ F.fw < 0 then
    { fw := 0
      fg := if cfg.activeGas then F.fg / (1 - F.fw) else F.fg
      fs := if cfg.hasSolvent then F.fs / (1 - F.fw) else F.fs
      fo := F.fo / (1 - F.fw) }
  else F

/-- `if (F[Gas] < 0.0) { ... }`. -/
def renormGas (cfg : WellFlagCfg) (F : WellFracs) : WellFracs :=
  if cfg.activeGas = true ∧ F.fg < 0 then
    { fw := if cfg.activeWater then F.fw / (1 - F.fg) else F.fw
      fg := 0
      fs := if cfg.hasSolvent then F.fs / (1 - F.fg) else F.fs
      fo := F.fo / (1 - F.fg) }
  else F

/-- `if (F[Oil] < 0.0) { ... }` (this guard is not conditioned on a flag). -/
def renormOil (cfg : WellFlagCfg) (F : WellFracs) : WellFracs :=
  if F.fo < 0 then
    { fw := if cfg.activeWater then F.fw / (1 - F.fo) else F.fw
      fg := if cfg.activeGas then F.fg / (1 - F.fo) else F.fg
      fs := if cfg.hasSolvent then F.fs / (1 - F.fo) else F.fs
      fo := 0 }
  else F

/-- The fraction part of `updateWellState` for one well: apply the
`dFLimit`-limited updates to the stored fraction variables (only for active
phases; inactive entries of `F` stay `0`), derive `F[Oil] = 1 - ...`, then run
the three sequential negative-fraction renormalizations. -/
def updateWellFractions (cfg : WellFlagCfg) (dW dG dS wOld gOld sOld : ℚ) : WellFracs :=
  let fw0 : ℚ := if cfg.activeWater then wOld - clampAbs dW cfg.dFLimit else 0
  let fg0 : ℚ := if cfg.activeGas then gOld - clampAbs dG cfg.dFLimit else 0
  let fs0 : ℚ := if cfg.hasSolvent then sOld - clampAbs dS cfg.dFLimit else 0
  renormOil cfg (renormGas cfg (renormWater cfg
    { fw := fw0, fg := fg0, fs := fs0, fo := 1 - fw0 - fg0 - fs0 }))

lemma renormWater_sum (cfg : WellFlagCfg) (F : WellFracs)
    (hg : cfg.activeGas = false → F.fg = 0) (hs : cfg.hasSolvent = false → F.fs = 0)
    (h1 : F.sum = 1) : (renormWater cfg F).sum = 1 := by
  unfold renormWater
  split
  · rename_i h
    have hne : (1 : ℚ) - F.fw ≠ 0 := by
      have := h.2; intro hc; nlinarith
    have hgoal : F.fg / (1 - F.fw) + F.fs / (1 - F.fw) + F.fo / (1 - F.fw) = 1 := by
      have hsum : F.fg + F.fs + F.fo = 1 - F.fw := by
        have := h1; unfold WellFracs.sum at this; linarith
      field_simp
      linarith
    unfold WellFracs.sum
    simp only
    cases hG : cfg.activeGas <;> cases hS : cfg.hasSolvent <;>
      simp only [if_true, if_false, Bool.false_eq_true] <;>
      first
      | (rw [hg hG, hs hS] at hgoal ⊢; simpa using hgoal)
      | (rw [hg hG] at hgoal ⊢; simpa using hgoal)
      | (rw [hs hS] at hgoal ⊢; simpa using hgoal)
      | (simpa using hgoal)
  · exact h1

lemma renormGas_sum (cfg : WellFlagCfg) (F : WellFracs)
    (hw : cfg.activeWater = false → F.fw = 0) (hs : cfg.hasSolvent = false → F.fs = 0)
    (h1 : F.sum = 1) : (renormGas cfg F).sum = 1 := by
  unfold renormGas
  split
  · rename_i h
    have hne : (1 : ℚ) - F.fg ≠ 0 := by
      have := h.2; intro hc; nlinarith
    have hgoal : F.fw / (1 - F.fg) + F.fs / (1 - F.fg) + F.fo / (1 - F.fg) = 1 := by
      have hsum : F.fw + F.fs + F.fo = 1 - F.fg := by
        have := h1; unfold WellFracs.sum at this; linarith
      field_simp
      linarith
    unfold WellFracs.sum
    simp only
    cases hW : cfg.activeWater <;> cases hS : cfg.hasSolvent <;>
      simp only [if_true, if_false, Bool.false_eq_true] <;>
      first
      | (rw [hw hW, hs hS] at hgoal ⊢; simpa using hgoal)
      | (rw [hw hW] at hgoal ⊢; simpa using hgoal)
      | (rw [hs hS] at hgoal ⊢; simpa using hgoal)
      | (simpa using hgoal)
  · exact h1

lemma renormOil_sum (cfg : WellFlagCfg) (F : WellFracs)
    (hw : cfg.activeWater = false → F.fw = 0) (hg : cfg.activeGas = false → F.fg = 0)
    (hs : cfg.hasSolvent = false → F.fs = 0)
    (h1 : F.sum = 1) : (renormOil cfg F).sum = 1 := by
  unfold renormOil
  split
  · rename_i h
    have hne : (1 : ℚ) - F.fo ≠ 0 := by intro hc; nlinarith
    have hgoal : F.fw / (1 - F.fo) + F.fg / (1 - F.fo) + F.fs / (1 - F.fo) = 1 := by
      have hsum : F.fw + F.fg + F.fs = 1 - F.fo := by
        have := h1; unfold WellFracs.sum at this; linarith
      field_simp
      linarith
    unfold WellFracs.sum
    simp only
    cases hW : cfg.activeWater <;> cases hG : cfg.activeGas <;> cases hS : cfg.hasSolvent <;>
      simp only [if_true, if_false, Bool.false_eq_true] <;>
      first
      | (rw [hw hW, hg hG, hs hS] at hgoal ⊢; simpa using hgoal)
      | (rw [hw hW, hg hG] at hgoal ⊢; simpa using hgoal)
      | (rw [hw hW, hs hS] at hgoal ⊢; simpa using hgoal)
      | (rw [hg hG, hs hS] at hgoal ⊢; simpa using hgoal)
      | (rw [hw hW] at hgoal ⊢; simpa using hgoal)
      | (rw [hg hG] at hgoal ⊢; simpa using hgoal)
      | (rw [hs hS] at hgoal ⊢; simpa using hgoal)
      | (simpa using hgoal)
  · exact h1

lemma renormWater_flagZero (cfg : WellFlagCfg) (F : WellFracs)
    (hw : cfg.activeWater = false → F.fw = 0) (hg : cfg.activeGas = false → F.fg = 0)
    (hs : cfg.hasSolvent = false → F.fs = 0) :
    (cfg.activeWater = false → (renormWater cfg F).fw = 0)
    ∧ (cfg.activeGas = false → (renormWater cfg F).fg = 0)
    ∧ (cfg.hasSolvent = false → (renormWater cfg F).fs = 0) := by
  unfold renormWater
  split
  · refine ⟨fun _ => rfl, fun hG => ?_, fun hS => ?_⟩
    · simp only [hG, Bool.false_eq_true, if_false]; exact hg hG
    · simp only [hS, Bool.false_eq_true, if_false]; exact hs hS
  · exact ⟨hw, hg, hs⟩

lemma renormGas_flagZero (cfg : WellFlagCfg) (F : WellFracs)
    (hw : cfg.activeWater = false → F.fw = 0) (hg : cfg.activeGas = false → F.fg = 0)
    (hs : cfg.hasSolvent = false → F.fs = 0) :
    (cfg.activeWater = false → (renormGas cfg F).fw = 0)
    ∧ (cfg.activeGas = false → (renormGas cfg F).fg = 0)
    ∧ (cfg.hasSolvent = false → (renormGas cfg F).fs = 0) := by
  unfold renormGas
  split
  · refine ⟨fun hW => ?_, fun _ => rfl, fun hS => ?_⟩
    · simp only [hW, Bool.false_eq_true, if_false]; exact hw hW
    · simp only [hS, Bool.false_eq_true, if_false]; exact hs hS
  · exact ⟨hw, hg, hs⟩

/-- C8: after `updateWellState`'s limited fraction update and the sequential
negative-fraction renormalization, the water, gas and solvent fractions plus
the derived oil fraction sum to exactly `1`, for every well, every update
vector and every configuration of the activity flags. -/
theorem updateWellFractions_sum_one (cfg : WellFlagCfg) (dW dG dS wOld gOld sOld : ℚ) :
    (updateWellFractions cfg dW dG dS wOld gOld sOld).sum = 1 := by
  unfold updateWellFractions
  set fw0 : ℚ := if cfg.activeWater then wOld - clampAbs dW cfg.dFLimit else 0 with hfw0
  set fg0 : ℚ := if cfg.activeGas then gOld - clampAbs dG cfg.dFLimit else 0 with hfg0
  set fs0 : ℚ := if cfg.hasSolvent then sOld - clampAbs dS cfg.dFLimit else 0 with hfs0
  have hw0 : cfg.activeWater = false → fw0 = 0 := fun h => by
    rw [hfw0, h]; simp
  have hg0 : cfg.activeGas = false → fg0 = 0 := fun h => by
    rw [hfg0, h]; simp
  have hs0 : cfg.hasSolvent = false → fs0 = 0 := fun h => by
    rw [hfs0, h]; simp
  set F0 : WellFracs := { fw := fw0, fg := fg0, fs := fs0, fo := 1 - fw0 - fg0 - fs0 } with hF0
  have h0 : F0.sum = 1 := by unfold WellFracs.sum; rw [hF0]; ring
  have hflags1 := renormWater_flagZero cfg F0 hw0 hg0 hs0
  have h1 : (renormWater cfg F0).sum = 1 := renormWater_sum cfg F0 hg0 hs0 h0
  have hflags2 := renormGas_flagZero cfg (renormWater cfg F0) hflags1.1 hflags1.2.1 hflags1.2.2
  have h2 : (renormGas cfg (renormWater cfg F0)).sum = 1 :=
    renormGas_sum cfg (renormWater cfg F0) hflags1.1 hflags1.2.2 h1
  exact renormOil_sum cfg _ hflags2.1 hflags2.2.1 hflags2.2.2 h2

/-! ## Convergence predicate (`BlackoilModelEbos::getConvergence`)

Embeds the final part of `getConvergence` (`BlackoilModelEbos.hpp`,
lines 1439-1527): from the globally reduced per-component quantities
`B_avg`, `R_sum`, `maxCoeff`, `maxNormWell` and the scalars `dt`, `pvSum`,
compute the three residual vectors and fold the strict comparisons, then run
the final per-phase check that throws `Opm::NumericalProblem` for any
residual above `param_.max_residual_allowed_` (lines 1512-1525); on top of
that, the `&& iteration > minIter()` and group-control conjuncts added at
the call site in `nonlinearIteration` (lines 253-262), to which such a
throw propagates unguarded. -/

/-- The fatal `Opm::NumericalProblem` signal: thrown by `getConvergence` for
a residual above the ceiling, and by `stepImpl` once the restart budget is
exhausted. -/
inductive FatalProblem
  | numericalProblem
deriving DecidableEq

/-- Tolerances and iteration bounds: `param_.tolerance_mb_`,
`param_.tolerance_cnv_`, `param_.tolerance_wells_`,
`param_.max_residual_allowed_` (via `maxResidualAllowed()`),
`param_.max_strict_iter_` and `nonlinear_solver.minIter()`. -/
structure ConvTols where
  tolMb : ℚ
  tolCnv : ℚ
  tolWells : ℚ
  maxResidualAllowed : ℚ
  maxStrictIter : ℕ
  minIter : ℕ
deriving DecidableEq

/-- The globally reduced inputs for one component: `B_avg[c]`, `R_sum[c]`,
`maxCoeff[c]` and `maxNormWell[c]`. -/
structure CompResid where
  bAvg : ℚ
  rSum : ℚ
  maxCoeff : ℚ
  maxNormWell : ℚ
deriving DecidableEq

/-- `mass_balance_residual[c] = std::abs(B_avg[c]*R_sum[c]) * dt / pvSum`. -/
def massBalanceResidual (dt pvSum : ℚ) (c : CompResid) : ℚ := |c.bAvg * c.rSum| * dt / pvSum

/-- `CNV[c] = B_avg[c] * dt * maxCoeff[c]`. -/
def cnvValue (dt : ℚ) (c : CompResid) : ℚ := c.bAvg * dt * c.maxCoeff

/-- `well_flux_residual[c] = B_avg[c] * maxNormWell[c]`. -/
def wellFluxResidual (c : CompResid) : ℚ := c.bAvg * c.maxNormWell

/-- The boolean folds of `getConvergence` over the three residual vectors:
`converged_MB && converged_Well`, with `converged_CNV` added only while
`iteration < param_.max_strict_iter_`. -/
def convergedLists (t : ConvTols) (iter : ℕ) (mb cnv wf : List ℚ) : Bool :=
  let cMB := mb.all fun r => decide (r < t.tolMb)
  let cCNV := cnv.all fun r => decide (r < t.tolCnv)
  let cWell := wf.all fun r => decide (r < t.tolWells)
  let conv := cMB && cWell
  if iter < t.maxStrictIter then conv && cCNV else conv

/-- The no-throw condition of the final check loop of `getConvergence`
(lines 1512-1525): for every fluid phase (`phaseIdx < numPhases()`), the
phase's mass-balance, CNV and well-flux residuals are all at most
`maxResidualAllowed()` — otherwise the source throws
`Opm::NumericalProblem`. The `phaseIdx < numPhases()` conjunct on the
well-flux test is kept from the source (it is vacuous inside this loop);
`std::isnan` cannot fire in exact rational arithmetic, so only the ceiling
comparison is modelled. -/
def residualCeilingOk (maxResid : ℚ) (np : ℕ) (mb cnv wf : List ℚ) : Bool :=
  (List.range np).all fun p =>
    !(decide (mb.getD p 0 > maxResid) || decide (cnv.getD p 0 > maxResid)
      || (decide (p < np) && decide (wf.getD p 0 > maxResid)))

/-- `getConvergence` on the residual vectors: fold the comparisons, then run
the per-phase ceiling check before returning — `.error` is the thrown
`NumericalProblem`, `.ok` the returned flag. -/
def getConvergenceLists (t : ConvTols) (np : ℕ) (iter : ℕ) (mb cnv wf : List ℚ) :
    Except FatalProblem Bool :=
  let conv := convergedLists t iter mb cnv wf
  if residualCeilingOk t.maxResidualAllowed np mb cnv wf then .ok conv
  else .error FatalProblem.numericalProblem

/-- `getConvergence`: compute the residual vectors from the reduced
per-component data (the first `np` components are the fluid phases), fold
the comparisons and run the ceiling check. -/
def getConvergence (t : ConvTols) (np : ℕ) (dt pvSum : ℚ) (iter : ℕ)
    (comps : List CompResid) : Except FatalProblem Bool :=
  getConvergenceLists t np iter (comps.map (massBalanceResidual dt pvSum))
    (comps.map (cnvValue dt)) (comps.map wellFluxResidual)

/-- The pure tail of `report.converged` in `nonlinearIteration`: the flag
returned by `getConvergence`, `&& iteration > nonlinear_solver.minIter()`,
and the group-control conjunct. -/
def reportConvergedBool (t : ConvTols) (iter : ℕ) (conv : Bool)
    (groupActive groupConv : Bool) : Bool :=
  let c := conv && decide (iter > t.minIter)
  if groupActive then c && groupConv else c

/-- `report.converged` as computed in `nonlinearIteration`, on the residual
vectors: a `NumericalProblem` thrown inside `getConvergence` propagates out
of `nonlinearIteration` (the call at line 257 is unguarded). -/
def reportConvergedLists (t : ConvTols) (np : ℕ) (iter : ℕ) (mb cnv wf : List ℚ)
    (groupActive groupConv : Bool) : Except FatalProblem Bool :=
  match getConvergenceLists t np iter mb cnv wf with
  | .error e => .error e
  | .ok conv => .ok (reportConvergedBool t iter conv groupActive groupConv)

/-- `report.converged` from the reduced per-component data. -/
def reportConverged (t : ConvTols) (np : ℕ) (dt pvSum : ℚ) (iter : ℕ)
    (comps : List CompResid) (groupActive groupConv : Bool) : Except FatalProblem Bool :=
  match getConvergence t np dt pvSum iter comps with
  | .error e => .error e
  | .ok conv => .ok (reportConvergedBool t iter conv groupActive groupConv)

lemma reportConverged_eq_lists (t : ConvTols) (np : ℕ) (dt pvSum : ℚ) (iter : ℕ)
    (comps : List CompResid) (groupActive groupConv : Bool) :
    reportConverged t np dt pvSum iter comps groupActive groupConv
      = reportConvergedLists t np iter (comps.map (massBalanceResidual dt pvSum))
          (comps.map (cnvValue dt)) (comps.map wellFluxResidual) groupActive groupConv := rfl

lemma convergedLists_eq_true (t : ConvTols) (iter : ℕ) (mb cnv wf : List ℚ) :
    convergedLists t iter mb cnv wf = true ↔
      ((∀ r ∈ mb, r < t.tolMb) ∧ (∀ r ∈ wf, r < t.tolWells)
        ∧ (iter < t.maxStrictIter → ∀ r ∈ cnv, r < t.tolCnv)) := by
  unfold convergedLists
  by_cases h : iter < t.maxStrictIter <;>
    simp [h, List.all_eq_true, and_assoc, and_comm, and_left_comm]

lemma reportConvergedBool_eq_true (t : ConvTols) (iter : ℕ) (mb cnv wf : List ℚ)
    (groupActive groupConv : Bool) :
    reportConvergedBool t iter (convergedLists t iter mb cnv wf) groupActive groupConv
        = true ↔
      ((∀ r ∈ mb, r < t.tolMb) ∧ (∀ r ∈ wf, r < t.tolWells)
        ∧ (iter < t.maxStrictIter → ∀ r ∈ cnv, r < t.tolCnv)
        ∧ t.minIter < iter ∧ (groupActive = true → groupConv = true)) := by
  unfold reportConvergedBool
  cases hg : groupActive <;> cases hgc : groupConv <;>
    simp [convergedLists_eq_true, and_assoc]

lemma residualCeilingOk_eq_true (maxResid : ℚ) (np : ℕ) (mb cnv wf : List ℚ) :
    residualCeilingOk maxResid np mb cnv wf = true ↔
      ∀ p, p < np → mb.getD p 0 ≤ maxResid ∧ cnv.getD p 0 ≤ maxResid
        ∧ wf.getD p 0 ≤ maxResid := by
  unfold residualCeilingOk
  rw [List.all_eq_true]
  constructor
  · intro h p hp
    have h2 := h p (List.mem_range.mpr hp)
    simp only [Bool.not_eq_true', Bool.or_eq_false_iff, Bool.and_eq_false_iff,
      decide_eq_false_iff_not, not_lt] at h2
    rcases h2 with ⟨⟨hmb, hcnv⟩, h3 | h3⟩
    · exact absurd hp (not_lt.mpr h3)
    · exact ⟨hmb, hcnv, h3⟩
  · intro h p hp
    have hp2 := List.mem_range.mp hp
    have h2 := h p hp2
    simp only [Bool.not_eq_true', Bool.or_eq_false_iff, Bool.and_eq_false_iff,
      decide_eq_false_iff_not, not_lt]
    exact ⟨⟨h2.1, h2.2.1⟩, Or.inr h2.2.2⟩

lemma reportConvergedLists_ceil_ok (t : ConvTols) (np : ℕ) (iter : ℕ)
    (mb cnv wf : List ℚ) (groupActive groupConv : Bool)
    (h : residualCeilingOk t.maxResidualAllowed np mb cnv wf = true) :
    reportConvergedLists t np iter mb cnv wf groupActive groupConv
      = .ok (reportConvergedBool t iter (convergedLists t iter mb cnv wf)
          groupActive groupConv) := by
  simp only [reportConvergedLists, getConvergenceLists]
  rw [if_pos h]

lemma reportConvergedLists_ceil_err (t : ConvTols) (np : ℕ) (iter : ℕ)
    (mb cnv wf : List ℚ) (groupActive groupConv : Bool)
    (h : residualCeilingOk t.maxResidualAllowed np mb cnv wf = false) :
    reportConvergedLists t np iter mb cnv wf groupActive groupConv
      = .error FatalProblem.numericalProblem := by
  simp only [reportConvergedLists, getConvergenceLists]
  rw [if_neg (by simp [h])]

lemma mem_set_of_lt {l : List ℚ} {j : ℕ} (hj : j < l.length) (v : ℚ) :
    v ∈ l.set j v := by
  have hlen : j < (l.set j v).length := by simpa using hj
  have h : (l.set j v).get ⟨j, hlen⟩ = v := by
    simp [List.get_eq_getElem, List.getElem_set_self]
  have hmem := List.get_mem (l.set j v) j hlen
  rwa [h] at hmem

/-- C2, amended: `nonlinearIteration` reports the step converged (the
`getConvergence` call returns, rather than throwing, and yields `true`) if
and only if, for every component, the mass-balance residual
`|B_avg·R_sum|·dt/pvSum` is strictly below `tol_mb` and the well-flux
residual `B_avg·maxNormWell` is below `tol_wells`, and — while
`iteration < max_strict_iter_` — the CNV value `B_avg·dt·maxCoeff` is below
`tol_cnv`, and `iteration > minIter`, and the group-target predicate holds
whenever group control is active, AND every fluid phase's mass-balance, CNV
and well-flux residual is at most `max_residual_allowed_` — when a phase
residual exceeds that ceiling (including a CNV residual at
`iteration ≥ max_strict_iter_`), `getConvergence` instead throws the fatal
`NumericalProblem` and nothing is reported; raising any single residual
entry to (or above) its tolerance makes the result not-converged: the call
never reports `true` (it returns `false`, or throws when the perturbed
residual is also above the ceiling for a phase entry). -/
theorem reportConverged_iff (t : ConvTols) (np : ℕ) (dt pvSum : ℚ) (iter : ℕ)
    (comps : List CompResid) (groupActive groupConv : Bool) :
    (reportConverged t np dt pvSum iter comps groupActive groupConv = .ok true ↔
      ((∀ c ∈ comps, |c.bAvg * c.rSum| * dt / pvSum < t.tolMb)
        ∧ (∀ c ∈ comps, c.bAvg * c.maxNormWell < t.tolWells)
        ∧ (iter < t.maxStrictIter → ∀ c ∈ comps, c.bAvg * dt * c.maxCoeff < t.tolCnv)
        ∧ t.minIter < iter ∧ (groupActive = true → groupConv = true)
        ∧ (∀ p, p < np →
            (comps.map (massBalanceResidual dt pvSum)).getD p 0 ≤ t.maxResidualAllowed
            ∧ (comps.map (cnvValue dt)).getD p 0 ≤ t.maxResidualAllowed
            ∧ (comps.map wellFluxResidual).getD p 0 ≤ t.maxResidualAllowed)))
    ∧ (∀ (mb cnv wf : List ℚ) (j : ℕ) (v : ℚ), j < mb.length → t.tolMb ≤ v →
        reportConvergedLists t np iter (mb.set j v) cnv wf groupActive groupConv
          ≠ .ok true)
    ∧ (∀ (mb cnv wf : List ℚ) (j : ℕ) (v : ℚ), j < wf.length → t.tolWells ≤ v →
        reportConvergedLists t np iter mb cnv (wf.set j v) groupActive groupConv
          ≠ .ok true)
    ∧ (∀ (mb cnv wf : List ℚ) (j : ℕ) (v : ℚ), j < cnv.length → t.tolCnv ≤ v →
        iter < t.maxStrictIter →
        reportConvergedLists t np iter mb (cnv.set j v) wf groupActive groupConv
          ≠ .ok true) := by
  refine ⟨?_, ?_, ?_, ?_⟩
  · rw [reportConverged_eq_lists]
    by_cases hceil : residualCeilingOk t.maxResidualAllowed np
        (comps.map (massBalanceResidual dt pvSum)) (comps.map (cnvValue dt))
        (comps.map wellFluxResidual) = true
    · rw [reportConvergedLists_ceil_ok t np iter _ _ _ groupActive groupConv hceil]
      have hcp := (residualCeilingOk_eq_true t.maxResidualAllowed np _ _ _).mp hceil
      simp only [Except.ok.injEq]
      rw [reportConvergedBool_eq_true]
      simp only [List.mem_map, forall_exists_index, and_imp]
      constructor
      · rintro ⟨h1, h2, h3, h4, h5⟩
        refine ⟨fun c hc => h1 _ c hc rfl, fun c hc => h2 _ c hc rfl,
          fun hs c hc => h3 hs _ c hc rfl, h4, h5, hcp⟩
      · rintro ⟨h1, h2, h3, h4, h5, -⟩
        exact ⟨fun r c hc hr => hr ▸ h1 c hc, fun r c hc hr => hr ▸ h2 c hc,
          fun hs r c hc hr => hr ▸ h3 hs c hc, h4, h5⟩
    · have hf : residualCeilingOk t.maxResidualAllowed np
          (comps.map (massBalanceResidual dt pvSum)) (comps.map (cnvValue dt))
          (comps.map wellFluxResidual) = false := by
        cases hb : residualCeilingOk t.maxResidualAllowed np
            (comps.map (massBalanceResidual dt pvSum)) (comps.map (cnvValue dt))
            (comps.map wellFluxResidual)
        · rfl
        · exact absurd hb hceil
      rw [reportConvergedLists_ceil_err t np iter _ _ _ groupActive groupConv hf]
      constructor
      · intro hc
        exact absurd hc (by simp)
      · rintro ⟨-, -, -, -, -, hcp⟩
        have := (residualCeilingOk_eq_true t.maxResidualAllowed np _ _ _).mpr hcp
        rw [hf] at this
        exact absurd this (by simp)
  · intro mb cnv wf j v hj hv hc
    by_cases hceil : residualCeilingOk t.maxResidualAllowed np (mb.set j v) cnv wf = true
    · rw [reportConvergedLists_ceil_ok t np iter _ _ _ groupActive groupConv hceil] at hc
      have hb : reportConvergedBool t iter (convergedLists t iter (mb.set j v) cnv wf)
          groupActive groupConv = true := by
        injection hc
      have h := (reportConvergedBool_eq_true t iter _ cnv wf groupActive groupConv).mp hb
      have := h.1 v (mem_set_of_lt (by simpa using hj) v)
      linarith
    · have hf : residualCeilingOk t.maxResidualAllowed np (mb.set j v) cnv wf = false := by
        cases hb : residualCeilingOk t.maxResidualAllowed np (mb.set j v) cnv wf
        · rfl
        · exact absurd hb hceil
      rw [reportConvergedLists_ceil_err t np iter _ _ _ groupActive groupConv hf] at hc
      exact absurd hc (by simp)
  · intro mb cnv wf j v hj hv hc
    by_cases hceil : residualCeilingOk t.maxResidualAllowed np mb cnv (wf.set j v) = true
    · rw [reportConvergedLists_ceil_ok t np iter _ _ _ groupActive groupConv hceil] at hc
      have hb : reportConvergedBool t iter (convergedLists t iter mb cnv (wf.set j v))
          groupActive groupConv = true := by
        injection hc
      have h := (reportConvergedBool_eq_true t iter mb cnv _ groupActive groupConv).mp hb
      have := h.2.1 v (mem_set_of_lt (by simpa using hj) v)
      linarith
    · have hf : residualCeilingOk t.maxResidualAllowed np mb cnv (wf.set j v) = false := by
        cases hb : residualCeilingOk t.maxResidualAllowed np mb cnv (wf.set j v)
        · rfl
        · exact absurd hb hceil
      rw [reportConvergedLists_ceil_err t np iter _ _ _ groupActive groupConv hf] at hc
      exact absurd hc (by simp)
  · intro mb cnv wf j v hj hv hs hc
    by_cases hceil : residualCeilingOk t.maxResidualAllowed np mb (cnv.set j v) wf = true
    · rw [reportConvergedLists_ceil_ok t np iter _ _ _ groupActive groupConv hceil] at hc
      have hb : reportConvergedBool t iter (convergedLists t iter mb (cnv.set j v) wf)
          groupActive groupConv = true := by
        injection hc
      have h := (reportConvergedBool_eq_true t iter mb _ wf groupActive groupConv).mp hb
      have := h.2.2.1 hs v (mem_set_of_lt (by simpa using hj) v)
      linarith
    · have hf : residualCeilingOk t.maxResidualAllowed np mb (cnv.set j v) wf = false := by
        cases hb : residualCeilingOk t.maxResidualAllowed np mb (cnv.set j v) wf
        · rfl
        · exact absurd hb hceil
      rw [reportConvergedLists_ceil_err t np iter _ _ _ groupActive groupConv hf] at hc
      exact absurd hc (by simp)

/-- C2, counterexample to the original claim: a synthetic single-phase
residual whose mass-balance and well-flux residuals pass their tolerances at
`iteration = 3 ≥ max_strict_iter_ = 2 > minIter = 1` (so every condition of
the claimed biconditional holds — the CNV clause is vacuous there), yet
whose CNV value `2000` exceeds `max_residual_allowed_ = 1000`:
`getConvergence` throws the fatal `NumericalProblem` instead of reporting
the step converged, so the claimed "if and only if" is false on the code. -/
theorem reportConverged_ceiling_throws :
    ((∀ c ∈ [CompResid.mk 1 (1/1000) 2000 (1/1000)],
        |c.bAvg * c.rSum| * 1 / 1 < (1:ℚ)/100)
      ∧ (∀ c ∈ [CompResid.mk 1 (1/1000) 2000 (1/1000)],
          c.bAvg * c.maxNormWell < (1:ℚ)/100)
      ∧ ((3:ℕ) < 2 → ∀ c ∈ [CompResid.mk 1 (1/1000) 2000 (1/1000)],
          c.bAvg * 1 * c.maxCoeff < (1:ℚ)/100)
      ∧ (1:ℕ) < 3 ∧ (false = true → false = true))
    ∧ reportConverged ⟨1/100, 1/100, 1/100, 1000, 2, 1⟩ 1 1 1 3
        [CompResid.mk 1 (1/1000) 2000 (1/1000)] false false
      = .error FatalProblem.numericalProblem := by
  constructor
  · refine ⟨?_, ?_, by norm_num, by norm_num, fun h => h⟩
    · intro c hc
      rw [List.mem_singleton] at hc
      subst hc
      norm_num [abs_of_nonneg]
    · intro c hc
      rw [List.mem_singleton] at hc
      subst hc
      norm_num
  · have hf : residualCeilingOk (1000:ℚ) 1
        ([CompResid.mk 1 (1/1000) 2000 (1/1000)].map (massBalanceResidual 1 1))
        ([CompResid.mk 1 (1/1000) 2000 (1/1000)].map (cnvValue 1))
        ([CompResid.mk 1 (1/1000) 2000 (1/1000)].map wellFluxResidual) = false := by
      norm_num [residualCeilingOk, massBalanceResidual, cnvValue, wellFluxResidual,
        List.range_succ, List.range_zero, abs_of_nonneg]
    exact reportConverged_eq_lists _ _ _ _ _ _ _ _ ▸
      reportConvergedLists_ceil_err ⟨1/100, 1/100, 1/100, 1000, 2, 1⟩ 1 3 _ _ _
        false false hf

/-- Witness for the amended C2 theorem at a concrete synthetic residual:
with every residual below its tolerance (and below the ceiling `1000`) and
`iteration = 2 > minIter = 1`, `maxStrictIter = 8`, the report is converged,
and setting the first mass-balance entry to the tolerance makes the call
not report convergence. -/
theorem reportConverged_iff_witness :
    reportConverged ⟨1/100, 1/100, 1/100, 1000, 8, 1⟩ 1 1 1 2
      [⟨1/1000, 1/1000, 1/1000, 1/1000⟩] false false = .ok true
    ∧ reportConvergedLists ⟨1/100, 1/100, 1/100, 1000, 8, 1⟩ 1 2
        ([(1:ℚ)/1000].set 0 (1/100)) [1/1000] [1/1000] false false ≠ .ok true := by
  constructor
  · refine (reportConverged_iff ⟨1/100, 1/100, 1/100, 1000, 8, 1⟩ 1 1 1 2
      [⟨1/1000, 1/1000, 1/1000, 1/1000⟩] false false).1.mpr
      ⟨by norm_num [abs_of_nonneg], by norm_num, by norm_num, by norm_num,
        fun h => h, ?_⟩
    intro p hp
    have hp0 : p = 0 := by omega
    subst hp0
    norm_num [massBalanceResidual, cnvValue, wellFluxResidual, abs_of_nonneg]
  · exact (reportConverged_iff ⟨1/100, 1/100, 1/100, 1000, 8, 1⟩ 1 1 1 2 [] false
      false).2.1 [(1:ℚ)/1000] [1/1000] [1/1000] 0 (1/100) (by norm_num) (by norm_num)

/-! ## Reservoir-state update (`BlackoilModelEbos::updateState`)

Embeds the per-cell body of `updateState` (`BlackoilModelEbos.hpp`,
lines 1096-1260): the relative pressure clamp, the Appleyard chop of the
saturation deltas, and the hydrocarbon-state phase translation. The PVT
evaluations `saturatedGasDissolutionFactor` / `saturatedOilVaporizationFactor`
(external fluid-system collaborator) enter as the parameters `rsSat`, `rvSat`. -/

/-- `HydroCarbonState` tag of a cell. -/
inductive HydroCarbonState
  | GasAndOil
  | OilOnly
  | GasOnly
deriving DecidableEq

/-- Model flags and update limits: `active_[...]`, `has_solvent_`,
`has_polymer_`, `has_disgas_`, `has_vapoil_`, `dsMax()` and `dpMaxRel()`.
Oil is always active. -/
structure ModelCfg where
  activeWater : Bool
  activeGas : Bool
  hasSolvent : Bool
  hasPolymer : Bool
  hasDisgas : Bool
  hasVapoil : Bool
  dsMax : ℚ
  dpMaxRel : ℚ
deriving DecidableEq

/-- Per-cell reservoir state: pressure, saturations, `Rs`, `Rv`, solvent
saturation, polymer concentration and the hydrocarbon-state tag. -/
structure CellState where
  p : ℚ
  sw : ℚ
  so : ℚ
  sg : ℚ
  rs : ℚ
  rv : ℚ
  ss : ℚ
  cpoly : ℚ
  hcs : HydroCarbonState
deriving DecidableEq

/-- The entries of the Newton update `dx` for one cell, by meaning:
pressure delta, water-saturation delta, the `xvar` delta (whose meaning
depends on the hydrocarbon state), solvent delta and polymer delta. -/
structure CellDelta where
  dp : ℚ
  dsw : ℚ
  dxvar : ℚ
  dss : ℚ
  dc : ℚ
deriving DecidableEq

/-- `const double epsilon = 1e-4`. -/
def epsHC : ℚ := 1/10000

/-- `dsw = active_[Water] ? dx[...] : 0.0`. -/
def chopDsw (cfg : ModelCfg) (d : CellDelta) : ℚ := if cfg.activeWater then d.dsw else 0

/-- `dxvar = active_[Gas] ? dx[...] : 0.0`. -/
def chopDxvar (cfg : ModelCfg) (d : CellDelta) : ℚ := if cfg.activeGas then d.dxvar else 0

/-- The gas-saturation delta selected by the hydrocarbon-state switch. -/
def chopDsg (cfg : ModelCfg) (d : CellDelta) (cell : CellState) : ℚ :=
  match cell.hcs with
  | .GasAndOil => chopDxvar cfg d
  | .OilOnly => 0
  | .GasOnly => -(chopDsw cfg d)

/-- The `Rs` delta (only in state `OilOnly`). -/
def chopDrs (cfg : ModelCfg) (d : CellDelta) (cell : CellState) : ℚ :=
  match cell.hcs with
  | .OilOnly => chopDxvar cfg d
  | _ => 0

/-- The `Rv` delta (only in state `GasOnly`). -/
def chopDrv (cfg : ModelCfg) (d : CellDelta) (cell : CellState) : ℚ :=
  match cell.hcs with
  | .GasOnly => chopDxvar cfg d
  | _ => 0

/-- `dss = has_solvent_ ? dx[...] : 0.0`. -/
def chopDss (cfg : ModelCfg) (d : CellDelta) : ℚ := if cfg.hasSolvent then d.dss else 0

/-- `maxVal`, accumulated in source order:
`max(|dsw|, 0)`, then `max(|dsg|, ·)`, then `max(|dss|, ·)`. -/
def chopMaxVal (cfg : ModelCfg) (d : CellDelta) (cell : CellState) : ℚ :=
  qmax (qabs (chopDss cfg d)) (qmax (qabs (chopDsg cfg d cell)) (qmax (qabs (chopDsw cfg d)) 0))

/-- `step = std::min(dsMax()/maxVal, 1.0)`. For `maxVal = 0` the double
division gives `+inf` (for the positive configuration value `dsMax`), so the
minimum is `1`; the embedding spells that case out. -/
def chopStep (cfg : ModelCfg) (d : CellDelta) (cell : CellState) : ℚ :=
  if chopMaxVal cfg d cell = 0 then 1 else qmin (cfg.dsMax / chopMaxVal cfg d cell) 1

/-- Intermediate result of the pressure clamp and Appleyard chop, before the
phase translation; `drs`, `drv` and `step` are carried along. -/
structure ChopResult where
  p : ℚ
  sw : ℚ
  so : ℚ
  sg : ℚ
  ss : ℚ
  cpoly : ℚ
  drs : ℚ
  drv : ℚ
  step : ℚ
deriving DecidableEq

/-- The pressure clamp and Appleyard chop part of `updateState` for one cell
(lines 1096-1171). -/
def chopCell (cfg : ModelCfg) (d : CellDelta) (cell : CellState) : ChopResult :=
  let signDp : ℚ := if d.dp > 0 then 1 else -1
  let p1 := cell.p - signDp * qmin (qabs d.dp) (qabs cell.p * cfg.dpMaxRel)
  let dsw := chopDsw cfg d
  let dsg := chopDsg cfg d cell
  let dss := chopDss cfg d
  let dc := if cfg.hasPolymer then d.dc else 0
  let dso := -dsw - dsg - dss
  let step := chopStep cfg d cell
  { p := qmax p1 0
    sw := if cfg.activeWater then cell.sw - step * dsw else cell.sw
    sg := if cfg.activeGas then cell.sg - step * dsg else cell.sg
    ss := if cfg.hasSolvent then cell.ss - step * dss else cell.ss
    cpoly := if cfg.hasPolymer then qmax (cell.cpoly - step * dc) 0 else cell.cpoly
    so := cell.so - step * dso
    drs := chopDrs cfg d cell
    drv := chopDrv cfg d cell
    step := step }

/-- The `rs`/`rv` update and hydrocarbon-state phase translation of
`updateState` (lines 1174-1260), guarded by `active_[Gas] && active_[Oil]`. -/
def translateCell (cfg : ModelCfg) (rsSat rvSat : ℚ) (cell : CellState) (ch : ChopResult) :
    CellState :=
  if cfg.activeGas then
    let rs1 := if cfg.hasDisgas then qmax (cell.rs - ch.drs) 0 else cell.rs
    let rv1 := if cfg.hasVapoil then qmax (cell.rv - ch.drv) 0 else cell.rv
    let base : CellState :=
      { p := ch.p, sw := ch.sw, so := ch.so, sg := ch.sg, rs := rs1, rv := rv1,
        ss := ch.ss, cpoly := ch.cpoly, hcs := cell.hcs }
    match cell.hcs with
    | .GasAndOil =>
      if ch.sw > 1 - epsHC then { base with rs := rsSat, rv := rvSat }
      else if ch.sg ≤ 0 ∧ cfg.hasDisgas = true then
        { base with
          hcs := .OilOnly
          sg := 0
          so := (1 - ch.sw) - (if cfg.hasSolvent then ch.ss else 0)
          rs := rsSat * (1 - epsHC)
          rv := rvSat }
      else if ch.so ≤ 0 ∧ cfg.hasVapoil = true then
        { base with
          hcs := .GasOnly
          so := 0
          sg := (1 - ch.sw) - (if cfg.hasSolvent then ch.ss else 0)
          rs := rsSat
          rv := rvSat * (1 - epsHC) }
      else { base with rs := rsSat, rv := rvSat }
    | .OilOnly =>
      if ch.sw > 1 - epsHC then { base with rs := 0, rv := 0, hcs := .GasAndOil }
      else if rs1 > rsSat * (1 + epsHC) then
        { base with
          hcs := .GasAndOil
          sg := epsHC
          so := ch.so - epsHC
          rs := rsSat }
      else base
    | .GasOnly =>
      if ch.sw > 1 - epsHC then { base with rs := 0, rv := 0, hcs := .GasAndOil }
      else if rv1 > rvSat * (1 + epsHC) then
        { base with
          hcs := .GasAndOil
          so := epsHC
          rv := rvSat
          sg := ch.sg - epsHC }
      else base
  else
    { p := ch.p, sw := ch.sw, so := ch.so, sg := ch.sg, rs := cell.rs, rv := cell.rv,
      ss := ch.ss, cpoly := ch.cpoly, hcs := cell.hcs }

/-- One cell of `updateState`: chop, then phase translation. -/
def updateStateCell (cfg : ModelCfg) (rsSat rvSat : ℚ) (d : CellDelta) (cell : CellState) :
    CellState :=
  translateCell cfg rsSat rvSat cell (chopCell cfg d cell)

lemma chopMaxVal_nonneg (cfg : ModelCfg) (d : CellDelta) (cell : CellState) :
    0 ≤ chopMaxVal cfg d cell := by
  unfold chopMaxVal
  rw [qmax_eq_max, qmax_eq_max, qmax_eq_max]
  exact le_trans (le_trans (le_max_right _ 0) (le_max_right _ _)) (le_max_right _ _)

lemma abs_chopDsw_le (cfg : ModelCfg) (d : CellDelta) (cell : CellState) :
    |chopDsw cfg d| ≤ chopMaxVal cfg d cell := by
  unfold chopMaxVal
  rw [qmax_eq_max, qmax_eq_max, qmax_eq_max, qabs_eq_abs, qabs_eq_abs, qabs_eq_abs]
  exact le_trans (le_trans (le_max_left _ 0) (le_max_right _ _)) (le_max_right _ _)

lemma abs_chopDsg_le (cfg : ModelCfg) (d : CellDelta) (cell : CellState) :
    |chopDsg cfg d cell| ≤ chopMaxVal cfg d cell := by
  unfold chopMaxVal
  rw [qmax_eq_max, qmax_eq_max, qmax_eq_max, qabs_eq_abs, qabs_eq_abs, qabs_eq_abs]
  exact le_trans (le_max_left _ _) (le_max_right _ _)

lemma abs_chopDss_le (cfg : ModelCfg) (d : CellDelta) (cell : CellState) :
    |chopDss cfg d| ≤ chopMaxVal cfg d cell := by
  unfold chopMaxVal
  rw [qmax_eq_max, qmax_eq_max, qmax_eq_max, qabs_eq_abs, qabs_eq_abs, qabs_eq_abs]
  exact le_max_left _ _

lemma chopStep_pos (cfg : ModelCfg) (d : CellDelta) (cell : CellState)
    (hds : 0 < cfg.dsMax) : 0 < chopStep cfg d cell := by
  unfold chopStep
  split
  · norm_num
  · rename_i h
    rw [qmin_eq_min, lt_min_iff]
    have hpos : 0 < chopMaxVal cfg d cell := (chopMaxVal_nonneg cfg d cell).lt_of_ne (Ne.symm h)
    exact ⟨div_pos hds hpos, one_pos⟩

lemma chopStep_le_one (cfg : ModelCfg) (d : CellDelta) (cell : CellState) :
    chopStep cfg d cell ≤ 1 := by
  unfold chopStep
  split
  · exact le_refl 1
  · rw [qmin_eq_min]; exact min_le_right _ _

lemma chopStep_mul_abs_le (cfg : ModelCfg) (d : CellDelta) (cell : CellState)
    (hds : 0 < cfg.dsMax) {x : ℚ} (hx : |x| ≤ chopMaxVal cfg d cell) :
    chopStep cfg d cell * |x| ≤ cfg.dsMax := by
  unfold chopStep
  split
  · rename_i h
    rw [h] at hx
    have hx0 : |x| = 0 := le_antisymm hx (abs_nonneg x)
    rw [hx0, mul_zero]
    exact hds.le
  · rename_i h
    have hpos : 0 < chopMaxVal cfg d cell := (chopMaxVal_nonneg cfg d cell).lt_of_ne (Ne.symm h)
    rw [qmin_eq_min]
    calc min (cfg.dsMax / chopMaxVal cfg d cell) 1 * |x|
        ≤ cfg.dsMax / chopMaxVal cfg d cell * chopMaxVal cfg d cell := by
          apply mul_le_mul (min_le_left _ _) hx (abs_nonneg x)
          exact (div_pos hds hpos).le
      _ = cfg.dsMax := div_mul_cancel₀ _ (ne_of_gt hpos)

lemma chop_pressure_bound (cfg : ModelCfg) (d : CellDelta) (cell : CellState)
    (hp : 0 ≤ cell.p) (hdp : 0 ≤ cfg.dpMaxRel) :
    |(chopCell cfg d cell).p - cell.p| ≤ cfg.dpMaxRel * |cell.p|
    ∧ 0 ≤ (chopCell cfg d cell).p := by
  have hpe : (chopCell cfg d cell).p
      = qmax (cell.p - (if d.dp > 0 then (1:ℚ) else -1)
          * qmin (qabs d.dp) (qabs cell.p * cfg.dpMaxRel)) 0 := rfl
  rw [hpe, qmax_eq_max, qmin_eq_min, qabs_eq_abs, qabs_eq_abs, abs_of_nonneg hp]
  set m : ℚ := min |d.dp| (cell.p * cfg.dpMaxRel) with hm
  have hm0 : 0 ≤ m := le_min (abs_nonneg _) (mul_nonneg hp hdp)
  have hmle : m ≤ cfg.dpMaxRel * cell.p := by
    rw [mul_comm]; exact min_le_right _ _
  refine ⟨?_, le_max_right _ 0⟩
  by_cases hdpp : d.dp > 0
  · rw [if_pos hdpp, one_mul]
    rcases le_or_lt 0 (cell.p - m) with hpl | hpl
    · rw [max_eq_left hpl, show cell.p - m - cell.p = -m by ring, abs_neg,
        abs_of_nonneg hm0]
      exact hmle
    · rw [max_eq_right hpl.le, zero_sub, abs_neg, abs_of_nonneg hp]
      linarith
  · rw [if_neg hdpp]
    have hple : 0 ≤ cell.p - (-1) * m := by nlinarith
    rw [max_eq_left hple, show cell.p - (-1) * m - cell.p = m by ring, abs_of_nonneg hm0]
    exact hmle

/-- C3, amended: in `updateState` the scalar `step = min(1, ds_max/maxVal)`
(with `maxVal = max(|dsw|,|dsg|,|dss|)`) lies in `(0,1]` and is applied
uniformly to the water, gas, solvent and derived oil saturation deltas; after
the chop each of the water, gas and solvent saturations has changed by at most
`ds_max` in absolute value, while the derived oil saturation (the complement
update `dso = -dsw-dsg-dss`) can change by up to `3·ds_max`; the pressure
change is clamped to at most `dp_max_rel·|p|` and the updated pressure is
floored at `0`. (The claim's bound `|Δso| ≤ ds_max` for the derived oil delta
is false; see the counterexample.) -/
theorem chopCell_bounds (cfg : ModelCfg) (d : CellDelta) (cell : CellState)
    (hds : 0 < cfg.dsMax) (hp : 0 ≤ cell.p) (hdp : 0 ≤ cfg.dpMaxRel) :
    (0 < chopStep cfg d cell ∧ chopStep cfg d cell ≤ 1)
    ∧ (chopMaxVal cfg d cell ≠ 0 →
        chopStep cfg d cell = qmin (cfg.dsMax / chopMaxVal cfg d cell) 1)
    ∧ ((chopCell cfg d cell).sw
        = (if cfg.activeWater then cell.sw - chopStep cfg d cell * chopDsw cfg d else cell.sw)
      ∧ (chopCell cfg d cell).sg
        = (if cfg.activeGas then cell.sg - chopStep cfg d cell * chopDsg cfg d cell else cell.sg)
      ∧ (chopCell cfg d cell).ss
        = (if cfg.hasSolvent then cell.ss - chopStep cfg d cell * chopDss cfg d else cell.ss)
      ∧ (chopCell cfg d cell).so
        = cell.so - chopStep cfg d cell
            * (-(chopDsw cfg d) - chopDsg cfg d cell - chopDss cfg d))
    ∧ (|(chopCell cfg d cell).sw - cell.sw| ≤ cfg.dsMax
      ∧ |(chopCell cfg d cell).sg - cell.sg| ≤ cfg.dsMax
      ∧ |(chopCell cfg d cell).ss - cell.ss| ≤ cfg.dsMax)
    ∧ |(chopCell cfg d cell).so - cell.so| ≤ 3 * cfg.dsMax
    ∧ (|(chopCell cfg d cell).p - cell.p| ≤ cfg.dpMaxRel * |cell.p|
      ∧ 0 ≤ (chopCell cfg d cell).p) := by
  have hstep0 := chopStep_pos cfg d cell hds
  have hstep1 := chopStep_le_one cfg d cell
  refine ⟨⟨hstep0, hstep1⟩, fun h => by unfold chopStep; rw [if_neg h], ⟨rfl, rfl, rfl, rfl⟩,
    ⟨?_, ?_, ?_⟩, ?_, chop_pressure_bound cfg d cell hp hdp⟩
  · have hb := chopStep_mul_abs_le cfg d cell hds (abs_chopDsw_le cfg d cell)
    by_cases hw : cfg.activeWater
    · have : (chopCell cfg d cell).sw = cell.sw - chopStep cfg d cell * chopDsw cfg d := by
        show (if cfg.activeWater then _ else _) = _
        rw [if_pos hw]
      rw [this, show cell.sw - chopStep cfg d cell * chopDsw cfg d - cell.sw
        = -(chopStep cfg d cell * chopDsw cfg d) by ring, abs_neg, abs_mul,
        abs_of_pos hstep0]
      exact hb
    · have : (chopCell cfg d cell).sw = cell.sw := by
        show (if cfg.activeWater then _ else _) = _
        rw [if_neg hw]
      rw [this, sub_self, abs_zero]
      exact hds.le
  · have hb := chopStep_mul_abs_le cfg d cell hds (abs_chopDsg_le cfg d cell)
    by_cases hg : cfg.activeGas
    · have : (chopCell cfg d cell).sg = cell.sg - chopStep cfg d cell * chopDsg cfg d cell := by
        show (if cfg.activeGas then _ else _) = _
        rw [if_pos hg]
      rw [this, show cell.sg - chopStep cfg d cell * chopDsg cfg d cell - cell.sg
        = -(chopStep cfg d cell * chopDsg cfg d cell) by ring, abs_neg, abs_mul,
        abs_of_pos hstep0]
      exact hb
    · have : (chopCell cfg d cell).sg = cell.sg := by
        show (if cfg.activeGas then _ else _) = _
        rw [if_neg hg]
      rw [this, sub_self, abs_zero]
      exact hds.le
  · have hb := chopStep_mul_abs_le cfg d cell hds (abs_chopDss_le cfg d cell)
    by_cases hs : cfg.hasSolvent
    · have : (chopCell cfg d cell).ss = cell.ss - chopStep cfg d cell * chopDss cfg d := by
        show (if cfg.hasSolvent then _ else _) = _
        rw [if_pos hs]
      rw [this, show cell.ss - chopStep cfg d cell * chopDss cfg d - cell.ss
        = -(chopStep cfg d cell * chopDss cfg d) by ring, abs_neg, abs_mul,
        abs_of_pos hstep0]
      exact hb
    · have : (chopCell cfg d cell).ss = cell.ss := by
        show (if cfg.hasSolvent then _ else _) = _
        rw [if_neg hs]
      rw [this, sub_self, abs_zero]
      exact hds.le
  · have hso : (chopCell cfg d cell).so
        = cell.so - chopStep cfg d cell
            * (-(chopDsw cfg d) - chopDsg cfg d cell - chopDss cfg d) := rfl
    rw [hso, show cell.so - chopStep cfg d cell
        * (-(chopDsw cfg d) - chopDsg cfg d cell - chopDss cfg d) - cell.so
      = -(chopStep cfg d cell * (-(chopDsw cfg d) - chopDsg cfg d cell - chopDss cfg d))
        by ring, abs_neg, abs_mul, abs_of_pos hstep0]
    have htri : |(-(chopDsw cfg d) - chopDsg cfg d cell - chopDss cfg d)|
        ≤ |chopDsw cfg d| + |chopDsg cfg d cell| + |chopDss cfg d| := by
      calc |(-(chopDsw cfg d) - chopDsg cfg d cell - chopDss cfg d)|
          ≤ |(-(chopDsw cfg d) - chopDsg cfg d cell)| + |chopDss cfg d| := by
            have := abs_sub (-(chopDsw cfg d) - chopDsg cfg d cell) (chopDss cfg d)
            simpa [sub_eq_add_neg] using abs_add (-(chopDsw cfg d) - chopDsg cfg d cell)
              (-(chopDss cfg d))
        _ ≤ |chopDsw cfg d| + |chopDsg cfg d cell| + |chopDss cfg d| := by
            have h2 : |(-(chopDsw cfg d) - chopDsg cfg d cell)|
                ≤ |chopDsw cfg d| + |chopDsg cfg d cell| := by
              simpa [sub_eq_add_neg] using abs_add (-(chopDsw cfg d)) (-(chopDsg cfg d cell))
            linarith
    have hb1 := chopStep_mul_abs_le cfg d cell hds (abs_chopDsw_le cfg d cell)
    have hb2 := chopStep_mul_abs_le cfg d cell hds (abs_chopDsg_le cfg d cell)
    have hb3 := chopStep_mul_abs_le cfg d cell hds (abs_chopDss_le cfg d cell)
    have hsnn := hstep0.le
    nlinarith [abs_nonneg (chopDsw cfg d), abs_nonneg (chopDsg cfg d cell),
      abs_nonneg (chopDss cfg d)]

/-- The concrete configuration used for the C3 scenario:
three-phase water/oil/gas, `ds_max = 1/5`, `dp_max_rel = 1`. -/
def cfgC3 : ModelCfg := ⟨true, true, false, false, true, true, 1/5, 1⟩

/-- The concrete Newton update for the C3 scenario: water and gas saturation
deltas both equal to `ds_max`. -/
def deltaC3 : CellDelta := ⟨0, 1/5, 1/5, 0, 0⟩

/-- The concrete cell for the C3 scenario (state `GasAndOil`). -/
def cellC3 : CellState := ⟨100, 3/10, 2/5, 3/10, 50, 0, 0, 0, .GasAndOil⟩

/-- Witness for the amended C3 theorem at a concrete cell and update. -/
theorem chopCell_bounds_witness :
    (0 : ℚ) < cfgC3.dsMax ∧
    |(chopCell cfgC3 deltaC3 cellC3).so - cellC3.so| ≤ 3 * cfgC3.dsMax := by
  refine ⟨by norm_num [cfgC3], ?_⟩
  exact (chopCell_bounds cfgC3 deltaC3 cellC3
    (by norm_num [cfgC3]) (by norm_num [cellC3]) (by norm_num [cfgC3])).2.2.2.2.1

/-- C3, counterexample: at a concrete cell in state `GasAndOil` with
`ds_max = 1/5`, water and gas deltas both `1/5` (so `step = 1`), the derived
oil saturation moves by `2/5 > ds_max`: the claim "after the update every
saturation-like unknown has changed by at most ds_max in absolute value" is
false for the derived oil saturation. -/
theorem updateState_oil_delta_exceeds_dsMax :
    ¬ (|(updateStateCell cfgC3 50 0 deltaC3 cellC3).so - cellC3.so| ≤ cfgC3.dsMax) := by
  have hso : (updateStateCell cfgC3 50 0 deltaC3 cellC3).so = 4/5 := by
    norm_num [cfgC3, deltaC3, cellC3, updateStateCell, translateCell, chopCell, chopStep,
      chopMaxVal, chopDsw, chopDsg, chopDss, chopDxvar, chopDrs, chopDrv, qabs, qmin,
      qmax, epsHC]
  rw [hso]
  norm_num [cfgC3, cellC3, abs_of_nonneg]

/-- C9, amended: in `updateState`, for a cell tagged `OilOnly` (gas active,
dissolved gas enabled) whose post-chop water saturation is at most
`1 - ε`, if the updated `Rs` value `max(rs - drs, 0)` exceeds
`rsSat * (1 + ε)` (note: not merely `rsSat`), the tag transitions to
`GasAndOil`, with `Sg` set to `ε = 1e-4`, `So` reduced by `ε` from its
post-chop value, and `Rs` reset to `rsSat`. -/
theorem updateState_oilOnly_oversaturated (cfg : ModelCfg) (rsSat rvSat : ℚ)
    (d : CellDelta) (cell : CellState)
    (hag : cfg.activeGas = true)
    (hhcs : cell.hcs = HydroCarbonState.OilOnly)
    (hsw : (chopCell cfg d cell).sw ≤ 1 - epsHC)
    (hrs : (if cfg.hasDisgas then qmax (cell.rs - (chopCell cfg d cell).drs) 0 else cell.rs)
      > rsSat * (1 + epsHC)) :
    (updateStateCell cfg rsSat rvSat d cell).hcs = HydroCarbonState.GasAndOil
    ∧ (updateStateCell cfg rsSat rvSat d cell).sg = epsHC
    ∧ (updateStateCell cfg rsSat rvSat d cell).so = (chopCell cfg d cell).so - epsHC
    ∧ (updateStateCell cfg rsSat rvSat d cell).rs = rsSat := by
  unfold updateStateCell translateCell
  rw [if_pos hag, hhcs]
  simp only [if_neg (not_lt.mpr hsw), if_pos hrs]
  refine ⟨?_, ?_, ?_, ?_⟩ <;> trivial

/-- Witness for the amended C9 theorem at a concrete oversaturated cell. -/
theorem updateState_oilOnly_oversaturated_witness :
    (updateStateCell ⟨true, true, false, false, true, true, 1/5, 1⟩ 100 0
      ⟨0, 0, 0, 0, 0⟩ ⟨100, 1/10, 9/10, 0, 101, 0, 0, 0, .OilOnly⟩).hcs
      = HydroCarbonState.GasAndOil
    ∧ (updateStateCell ⟨true, true, false, false, true, true, 1/5, 1⟩ 100 0
      ⟨0, 0, 0, 0, 0⟩ ⟨100, 1/10, 9/10, 0, 101, 0, 0, 0, .OilOnly⟩).rs = 100 := by
  have h := updateState_oilOnly_oversaturated ⟨true, true, false, false, true, true, 1/5, 1⟩
    100 0 ⟨0, 0, 0, 0, 0⟩ ⟨100, 1/10, 9/10, 0, 101, 0, 0, 0, .OilOnly⟩
    rfl rfl
    (by norm_num [chopCell, chopStep, chopMaxVal, chopDsw, chopDsg, chopDss, chopDxvar,
      chopDrs, chopDrv, qabs, qmin, qmax, epsHC])
    (by norm_num [chopCell, chopStep, chopMaxVal, chopDsw, chopDsg, chopDss, chopDxvar,
      chopDrs, chopDrv, qabs, qmin, qmax, epsHC])
  exact ⟨h.1, h.2.2.2⟩

/-- C9, counterexample: a cell tagged `OilOnly` whose updated `Rs` equals
`100 + 1/200`, strictly above its saturated value `rsSat = 100` but below the
code's actual switching threshold `rsSat * (1 + ε) = 100.01`. The claim says
the tag transitions to `GasAndOil`; the code leaves the tag at `OilOnly`. -/
theorem updateState_oilOnly_no_transition_at_rsSat :
    (qmax ((100 + (1:ℚ)/200)
        - (chopCell ⟨true, true, false, false, true, true, 1/5, 1⟩ ⟨0, 0, 0, 0, 0⟩
            ⟨100, 1/10, 9/10, 0, 100 + 1/200, 0, 0, 0, .OilOnly⟩).drs) 0 > (100:ℚ))
    ∧ (updateStateCell ⟨true, true, false, false, true, true, 1/5, 1⟩ 100 0
        ⟨0, 0, 0, 0, 0⟩ ⟨100, 1/10, 9/10, 0, 100 + 1/200, 0, 0, 0, .OilOnly⟩).hcs
      = HydroCarbonState.OilOnly := by
  constructor
  · norm_num [chopCell, chopStep, chopMaxVal, chopDsw, chopDsg, chopDss, chopDxvar,
      chopDrs, chopDrv, qabs, qmin, qmax, epsHC]
  · norm_num [updateStateCell, translateCell, chopCell, chopStep, chopMaxVal,
      chopDsw, chopDsg, chopDss, chopDxvar, chopDrs, chopDrv, qabs, qmin, qmax, epsHC]

/-! ## Adaptive timestepping (`AdaptiveTimeStepping::stepImpl`)

Embeds one pass of the substep loop body of `stepImpl`
(`AdaptiveTimeStepping_impl.hpp`, lines 235-500): the `try`/`catch` over the
closed set of recoverable failure categories, the converged branch (advance,
step-size estimate with growth clamps, checkpoint), and the failure branch
(restart budget check, restore from the checkpoint, shrink by the restart
factor, increment the restart counter). The solver call itself and the
pluggable `timeStepControl_->computeTimeStepSize(...)` estimate enter as
parameters. -/

/-- The closed set of recoverable failure categories caught around
`solver.step(...)`: `Opm::TooManyIterations`, `Opm::LinearSolverProblem`,
`Opm::NumericalProblem`, `std::runtime_error`, `Dune::ISTLError`,
`Dune::MatrixBlockError`. -/
inductive RecoverableError
  | tooManyIterations
  | linearSolverProblem
  | numericalProblem
  | runtimeError
  | istlError
  | matrixBlockError
deriving DecidableEq

/-- Outcome of `solver.step(substepTimer, state, well_state)`: a normal
return with a converged flag and the (mutated) states, or one of the caught
recoverable exception categories. -/
inductive SolverOutcome (S W : Type)
  | ok (converged : Bool) (s : S) (w : W)
  | thrown (e : RecoverableError)
deriving DecidableEq

/-- Timestepping parameters: `restart_factor_`, `growth_factor_`,
`max_growth_`, `solver_restart_max_`. -/
structure TSParams where
  restartFactor : ℚ
  growthFactor : ℚ
  maxGrowth : ℚ
  solverRestartMax : ℕ
deriving DecidableEq

/-- The loop-carried state of the substep loop: the current substep length,
the restart counter, the live states and the last-good checkpoint
(`last_state`, `last_well_state`). -/
structure SubstepState (S W : Type) where
  dt : ℚ
  restarts : ℕ
  state : S
  wellState : W
  lastState : S
  lastWellState : W
deriving DecidableEq

/-- `substepReport.converged` after the `try`/`catch`: a caught recoverable
exception leaves the failure report, which is not converged. -/
def substepOutcomeConverged {S W : Type} : SolverOutcome S W → Bool
  | .ok c _ _ => c
  | .thrown _ => false

/-- One pass of the substep loop body after the solver attempt. `dtEstimate`
is the value of `timeStepControl_->computeTimeStepSize(dt, iterations, ...)`
(external policy collaborator). -/
def substepAttempt {S W : Type} (p : TSParams) (dtEstimate : ℚ) (st : SubstepState S W)
    (r : SolverOutcome S W) : Except FatalProblem (SubstepState S W) :=
  if substepOutcomeConverged r then
    match r with
    | .ok _ s w =>
      -- dtEstimate = std::min(dtEstimate, max_growth_ * dt);
      let dtE := qmin dtEstimate (p.maxGrowth * st.dt)
      -- if (restarts > 0) { dtEstimate = std::min(growth_factor_ * dt, dtEstimate); restarts = 0; }
      let dtE := if st.restarts > 0 then qmin (p.growthFactor * st.dt) dtE else dtE
      .ok { dt := dtE
            restarts := if st.restarts > 0 then 0 else st.restarts
            state := s
            wellState := w
            lastState := s
            lastWellState := w }
    | .thrown _ => .ok st   -- unreachable: a thrown outcome is never converged
  else
    -- if (restarts >= solver_restart_max_) throw NumericalProblem (before any restore)
    if st.restarts ≥ p.solverRestartMax then .error .numericalProblem
    else
      .ok { dt := p.restartFactor * st.dt
            restarts := st.restarts + 1
            state := st.lastState
            wellState := st.lastWellState
            lastState := st.lastState
            lastWellState := st.lastWellState }

/-- C4: on a failed substep attempt (a caught recoverable exception or a
non-converged report), while the restart counter has not reached
`solver_restart_max_` the loop restores `state` and `well_state` from the
last-good checkpoint, sets the next attempted substep length to
`restart_factor * dt`, and increments the restart counter, propagating no
exception; once the incremented counter would exceed `solver_restart_max_`
(i.e. `restarts ≥ solver_restart_max_` at the failed attempt), the report
step is aborted with the fatal `NumericalProblem`, and a caught recoverable
exception never escapes otherwise. -/
theorem substepAttempt_failure (p : TSParams) (dtEstimate : ℚ) {S W : Type}
    (st : SubstepState S W) (r : SolverOutcome S W)
    (hfail : substepOutcomeConverged r = false) :
    (st.restarts < p.solverRestartMax →
      substepAttempt p dtEstimate st r
        = .ok { dt := p.restartFactor * st.dt
                restarts := st.restarts + 1
                state := st.lastState
                wellState := st.lastWellState
                lastState := st.lastState
                lastWellState := st.lastWellState })
    ∧ (p.solverRestartMax < st.restarts + 1 →
        substepAttempt p dtEstimate st r = .error FatalProblem.numericalProblem)
    ∧ (∀ e : RecoverableError, r = .thrown e → st.restarts < p.solverRestartMax →
        (substepAttempt p dtEstimate st r).isOk = true) := by
  refine ⟨fun hlt => ?_, fun hge => ?_, fun e _ hlt => ?_⟩
  · unfold substepAttempt
    rw [hfail]
    simp only [Bool.false_eq_true, if_false]
    rw [if_neg (not_le.mpr hlt)]
  · unfold substepAttempt
    rw [hfail]
    simp only [Bool.false_eq_true, if_false]
    rw [if_pos (Nat.lt_succ_iff.mp hge)]
  · unfold substepAttempt
    rw [hfail]
    simp only [Bool.false_eq_true, if_false]
    rw [if_neg (not_le.mpr hlt)]
    rfl

/-- Witness for C4: a `NumericalProblem` thrown at the first attempt with
`restart_factor = 0.33`, `dt = 9.9` days and an untouched restart budget of
`10` is caught and turned into a restore with `dt = 3.267`. -/
theorem substepAttempt_failure_witness :
    substepAttempt (S := ℚ) (W := ℚ) ⟨33/100, 2, 3, 10⟩ 20
        ⟨99/10, 0, 5, 7, 1, 2⟩ (.thrown .numericalProblem)
      = .ok ⟨33/100 * (99/10), 1, 1, 2, 1, 2⟩ := by
  have h := (substepAttempt_failure (S := ℚ) (W := ℚ) ⟨33/100, 2, 3, 10⟩ 20
    ⟨99/10, 0, 5, 7, 1, 2⟩ (.thrown .numericalProblem) rfl).1 (by norm_num)
  exact h

/-! ## Well-block elimination (`StandardWellsDense::localInvert`, `recoverVariable`)

`invDuneD_` is block-diagonal with one `numWellEq × numWellEq` block per well;
`localInvert` inverts each block in place (`Dune::FieldMatrix::invert`, the
exact inverse), and `recoverVariable` computes
`xw = invD · (resWell − C·x)` (`StandardWellsDense_impl.hpp`, lines 458-467
and 555-564: `resWell = resWell_; duneC_.mmv(x, resWell);
invDuneD_.mv(resWell, xw)`). Wells are independent, so the embedding works
per-well with the well's diagonal block `D w`, the rows `C w` of the coupling
matrix belonging to the well, and the well's residual block `resWell w`. -/

/-- The exact inverse computed by `Dune::FieldMatrix::invert` for one
diagonal block, written with the adjugate so that it is executable:
`A⁻¹ = det(A)⁻¹ • adj(A)` (for singular blocks the doubles code divides by
zero; the theorems assume `det ≠ 0`). -/
def localInvertBlock {k : ℕ} (A : Matrix (Fin k) (Fin k) ℚ) : Matrix (Fin k) (Fin k) ℚ :=
  (A.det)⁻¹ • A.adjugate

/-- `localInvert`: invert every (block-diagonal) block of `invDuneD_`. -/
def localInvert {nw k : ℕ} (D : Fin nw → Matrix (Fin k) (Fin k) ℚ) :
    Fin nw → Matrix (Fin k) (Fin k) ℚ :=
  fun w => localInvertBlock (D w)

/-- `recoverVariable(x, xw)`: `xw = invD · (resWell − C·x)`, per well. -/
def recoverVariable {nw k m : ℕ} (invD : Fin nw → Matrix (Fin k) (Fin k) ℚ)
    (C : Fin nw → Matrix (Fin k) (Fin m) ℚ) (resWell : Fin nw → Fin k → ℚ)
    (x : Fin m → ℚ) : Fin nw → Fin k → ℚ :=
  fun w => (invD w).mulVec (resWell w - (C w).mulVec x)

lemma localInvertBlock_mul {k : ℕ} (A : Matrix (Fin k) (Fin k) ℚ) (h : A.det ≠ 0) :
    A * localInvertBlock A = 1 := by
  unfold localInvertBlock
  rw [Matrix.mul_smul, Matrix.mul_adjugate, smul_smul, inv_mul_cancel₀ h, one_smul]

/-- C6: for every reservoir solution `x`, the well unknowns recovered by
`recoverVariable` from the locally inverted blocks satisfy
`D·xw + C·x = resWell` exactly (the embedding's block inversion is exact, so
"up to the accuracy of the local block inversion" becomes equality), for
every well whose diagonal block is invertible. -/
theorem recoverVariable_schur {nw k m : ℕ} (D : Fin nw → Matrix (Fin k) (Fin k) ℚ)
    (C : Fin nw → Matrix (Fin k) (Fin m) ℚ) (resWell : Fin nw → Fin k → ℚ)
    (x : Fin m → ℚ) (hdet : ∀ w, (D w).det ≠ 0) (w : Fin nw) :
    (D w).mulVec (recoverVariable (localInvert D) C resWell x w) + (C w).mulVec x
      = resWell w := by
  unfold recoverVariable localInvert
  rw [Matrix.mulVec_mulVec, localInvertBlock_mul (D w) (hdet w), Matrix.one_mulVec]
  simp

/-- Witness for C6: one well, a 2×2 diagonal block `D = [[2,1],[0,1]]`
(`det = 2 ≠ 0`), `C = [[1,0],[0,1]]`, `resWell = (5,3)`, `x = (1,1)`. -/
theorem recoverVariable_schur_witness :
    (∀ w : Fin 1, Matrix.det ((fun _ : Fin 1 => !![(2:ℚ), 1; 0, 1]) w) ≠ 0)
    ∧ (!![(2:ℚ), 1; 0, 1]).mulVec
        (recoverVariable (localInvert (fun _ : Fin 1 => !![(2:ℚ), 1; 0, 1]))
          (fun _ : Fin 1 => !![(1:ℚ), 0; 0, 1]) (fun _ => ![5, 3]) ![1, 1] 0)
        + (!![(1:ℚ), 0; 0, 1]).mulVec ![1, 1]
      = ![5, 3] := by
  have hdet : ∀ w : Fin 1, Matrix.det ((fun _ : Fin 1 => !![(2:ℚ), 1; 0, 1]) w) ≠ 0 := by
    intro w
    rw [Matrix.det_fin_two_of]
    norm_num
  exact ⟨hdet, recoverVariable_schur (fun _ : Fin 1 => !![(2:ℚ), 1; 0, 1])
    (fun _ : Fin 1 => !![(1:ℚ), 0; 0, 1]) (fun _ => ![5, 3]) ![1, 1] hdet 0⟩

/-! ## Well-only pre-solve (`StandardWellsDense::solveWellEq`)

Embeds the fixed-point loop of `solveWellEq`
(`StandardWellsDense_impl.hpp`, lines 977-1030):

```
WellState well_state0 = well_state;
int it = 0;
do {
  assembleWellEq(...); converged = getWellConvergence(ebosSimulator, it);
  if (converged) break;
  ++it;
  if (localWellsActive()) { invDuneD_.mv(resWell_, dx_well); updateWellState(dx_well, well_state); }
  if (wellsActive()) { updateWellControls(well_state); setWellVariables(well_state); }
} while (it < 15);
if (!converged) { well_state = well_state0; for w: well_controls_set_current(wc, well_state.currentControls()[w]); }
```

The reservoir/ebos state is only read (`assembleWellEq` is called with
`only_wells = true`), so it is threaded through unchanged; convergence and
the well update act on the well state and the external `ctrls` structs. -/

/-- The state seen by `solveWellEq`: the reservoir/ebos state `res` (held
fixed), the well state `ws`, and the `current` fields of the external
`wells().ctrls` structs. -/
structure WellEqState (R W : Type) where
  res : R
  ws : W
  ctrls : List ℕ
deriving DecidableEq

/-- The simulator report produced by `solveWellEq`. -/
structure WellSolveReport where
  converged : Bool
  totalWellIterations : ℕ
deriving DecidableEq

/-- The loop of `solveWellEq`: `conv it ws` is
`getWellConvergence(ebosSimulator, it)` after `assembleWellEq` (a function of
the current well state at fixed reservoir state), and `upd` is the loop-body
update (`invDuneD_.mv(resWell_, dx_well); updateWellState; updateWellControls;
setWellVariables`), acting on the well state and the ctrls structs only.
`fuel` counts the re-entries still allowed by `while (it < 15)`. -/
def solveWellEqAux {W : Type} (conv : ℕ → W → Bool) (upd : W × List ℕ → W × List ℕ) :
    ℕ → ℕ → W × List ℕ → ℕ × (W × List ℕ) × Bool
  | fuel, it, s =>
    if conv it s.1 then (it, s, true)
    else
      match fuel with
      | 0 => (it + 1, upd s, false)
      | fuel' + 1 => solveWellEqAux conv upd fuel' (it + 1) (upd s)

/-- `solveWellEq`: run the loop (at most 15 update iterations), and on
non-convergence restore the well state to its value on entry and reset every
well's current control from the restored state (`currentCtrls`). -/
def solveWellEq {R W : Type} (conv : ℕ → W → Bool) (upd : W × List ℕ → W × List ℕ)
    (currentCtrls : W → List ℕ) (s0 : WellEqState R W) :
    WellSolveReport × WellEqState R W :=
  match solveWellEqAux conv upd 14 0 (s0.ws, s0.ctrls) with
  | (it, s, true) =>
    ({ converged := true, totalWellIterations := it },
     { res := s0.res, ws := s.1, ctrls := s.2 })
  | (it, _, false) =>
    ({ converged := false, totalWellIterations := it },
     { res := s0.res, ws := s0.ws, ctrls := currentCtrls s0.ws })

lemma solveWellEqAux_le {W : Type} (conv : ℕ → W → Bool) (upd : W × List ℕ → W × List ℕ) :
    ∀ (fuel it : ℕ) (s : W × List ℕ),
      (solveWellEqAux conv upd fuel it s).1 ≤ it + fuel + 1 := by
  intro fuel
  induction fuel with
  | zero =>
    intro it s
    unfold solveWellEqAux
    split
    · omega
    · show (it + 1, upd s, false).1 ≤ it + 0 + 1
      omega
  | succ fuel ih =>
    intro it s
    unfold solveWellEqAux
    split
    · omega
    · show (solveWellEqAux conv upd fuel (it + 1) (upd s)).1 ≤ it + (fuel + 1) + 1
      have h := ih (it + 1) (upd s)
      omega

/-- C5: `solveWellEq` performs at most 15 fixed-point update iterations on
the well unknowns (the reported `total_well_iterations` never exceeds 15),
leaves the reservoir state untouched, and, when convergence is not reached
within the cap, returns `converged = false` with the well state and every
well's current control restored to their values on entry (no exception is
propagated: the function is total and merely reports non-convergence). -/
theorem solveWellEq_cap_restore {R W : Type} (conv : ℕ → W → Bool)
    (upd : W × List ℕ → W × List ℕ) (currentCtrls : W → List ℕ)
    (s0 : WellEqState R W) :
    (solveWellEq conv upd currentCtrls s0).1.totalWellIterations ≤ 15
    ∧ (solveWellEq conv upd currentCtrls s0).2.res = s0.res
    ∧ ((solveWellEq conv upd currentCtrls s0).1.converged = false →
        (solveWellEq conv upd currentCtrls s0).2.ws = s0.ws
        ∧ (solveWellEq conv upd currentCtrls s0).2.ctrls = currentCtrls s0.ws) := by
  have hle := solveWellEqAux_le conv upd 14 0 (s0.ws, s0.ctrls)
  unfold solveWellEq
  rcases hr : solveWellEqAux conv upd 14 0 (s0.ws, s0.ctrls) with ⟨it, s, c⟩
  rw [hr] at hle
  cases c
  · exact ⟨by simpa using hle, rfl, fun _ => ⟨rfl, rfl⟩⟩
  · exact ⟨by simpa using hle, rfl, fun h => absurd h (by simp)⟩

/-- Witness for C5: with a convergence test that always fails and an update
that shifts the well state, the loop exhausts its 15 iterations and restores
the entry state and controls. -/
theorem solveWellEq_cap_restore_witness :
    (solveWellEq (R := ℚ) (W := ℚ) (fun _ _ => false) (fun s => (s.1 + 1, s.2))
        (fun _ => [0]) ⟨3, 7, [2]⟩).1.converged = false
    ∧ (solveWellEq (R := ℚ) (W := ℚ) (fun _ _ => false) (fun s => (s.1 + 1, s.2))
        (fun _ => [0]) ⟨3, 7, [2]⟩).2.ws = 7
    ∧ (solveWellEq (R := ℚ) (W := ℚ) (fun _ _ => false) (fun s => (s.1 + 1, s.2))
        (fun _ => [0]) ⟨3, 7, [2]⟩).1.totalWellIterations ≤ 15 := by
  have h := solveWellEq_cap_restore (R := ℚ) (W := ℚ) (fun _ _ => false)
    (fun s => (s.1 + 1, s.2)) (fun _ => [0]) ⟨3, 7, [2]⟩
  have haux : solveWellEqAux (W := ℚ) (fun _ _ => false) (fun s => (s.1 + 1, s.2)) 14 0
      ((7:ℚ), [2]) = (15, (22, [2]), false) := by
    simp only [solveWellEqAux, Bool.false_eq_true, if_false]
    norm_num
  have hconv : (solveWellEq (R := ℚ) (W := ℚ) (fun _ _ => false) (fun s => (s.1 + 1, s.2))
      (fun _ => [0]) ⟨3, 7, [2]⟩).1.converged = false := by
    unfold solveWellEq
    rw [haux]
  exact ⟨hconv, (h.2.2 hconv).1, h.1⟩

/-! ## Well controls (`StandardWellsDense::updateWellControls`,
`updateWellStateWithTarget`)

Embeds the per-well control scan of `updateWellControls`
(`StandardWellsDense_impl.hpp`, lines 1640-1740) and the target-based
re-initialization `updateWellStateWithTarget` (lines 2683-2897), for the
three-phase configuration (`np = 3`, phases ordered Water, Oil, Gas). The
group-control branch is inactive (`groupControlActive() == false`), so
`updateWellStateWithTarget` runs exactly when a well's control switched. -/

/-- Well control types (`BHP`, `THP`, `SURFACE_RATE`, `RESERVOIR_RATE`). -/
inductive CtrlType
  | bhp
  | thp
  | surfaceRate
  | reservoirRate
deriving DecidableEq

/-- `INJECTOR` / `PRODUCER`. -/
inductive WellType
  | injector
  | producer
deriving DecidableEq

/-- One control constraint of a well: its type, target value and per-phase
distribution weights (`well_controls_iget_target` / `..._distr`). -/
structure WellCtrl where
  ctype : CtrlType
  target : ℚ
  distr : List ℚ
deriving DecidableEq

/-- Static per-well data from the `Wells` struct: well type, the ordered
control list and the phase composition fractions `comp_frac`. -/
structure WellCfg where
  wtype : WellType
  ctrls : List WellCtrl
  compFrac : List ℚ
deriving DecidableEq

/-- Dynamic per-well state: `wellSolutions()[XvarWell]`, the three fraction
variables (`WFrac`, `GFrac`, `SFrac`), `bhp`, `thp`, the three phase rates
and the current control index. -/
structure WellStateW where
  xvar : ℚ
  fw : ℚ
  fg : ℚ
  fs : ℚ
  bhp : ℚ
  thp : ℚ
  rates : List ℚ
  currentCtrl : ℕ
deriving DecidableEq

/-- `std::vector<double> g = {1, 1, 0.01}`. -/
def gDefault : List ℚ := [1, 1, 1/100]

/-- Sum over the three phase indices. -/
def sum3 (f : ℕ → ℚ) : ℚ := f 0 + f 1 + f 2

/-- `Σ_p a[p] * b[p]` over the three phases. -/
def dot3 (a b : List ℚ) : ℚ :=
  a.getD 0 0 * b.getD 0 0 + a.getD 1 0 * b.getD 1 0 + a.getD 2 0 * b.getD 2 0

/-- `numPhasesWithTargetsUnderThisControl`. -/
def countPos (l : List ℚ) : ℚ := sum3 (fun p => if 0 < l.getD p 0 then 1 else 0)

/-- The default control used by `List.getD` lookups (never reached for the
in-range indices the theorems quantify over). -/
def defaultCtrl : WellCtrl := ⟨CtrlType.bhp, 0, []⟩

/-- The `for (p = 0; p < np; ++p)` loops writing `wellRates[...]`, `np = 3`. -/
def mkRates3 (f : ℕ → ℚ) : List ℚ := [f 0, f 1, f 2]

/-- First part of `updateWellStateWithTarget`: set `bhp` / `thp` / the well
rates from the target of the newly current control (the `switch` on
`well_controls_iget_type` at lines 2694-2810). The THP branch's
VFP-table/hydrostatic evaluation is the external parameter `vfpBhp`. -/
def targetPhase1 (ct : CtrlType) (target : ℚ) (distr : List ℚ) (wt : WellType)
    (vfpBhp : ℚ) (ws : WellStateW) : WellStateW :=
  match ct with
  | .bhp => { ws with bhp := target }
  | .thp => { ws with thp := target, bhp := vfpBhp }
  | .reservoirRate | .surfaceRate =>
    match wt with
    | .injector =>
      { ws with rates := mkRates3 fun p =>
          if 0 < distr.getD p 0 then target / distr.getD p 0 else 0 }
    | .producer =>
      let orig := dot3 distr ws.rates
      if orig ≠ 0 then
        { ws with rates := ws.rates.map fun r => r * (target / orig) }
      else
        { ws with rates := mkRates3 fun p =>
            if 0 < distr.getD p 0 then (target / countPos distr) / distr.getD p 0
            else target / countPos distr }

/-- Last part of `updateWellStateWithTarget`: set `wellSolutions[XvarWell]`
and the fraction variables from the (re-set) rates, with the zero-total-rate
defaults (lines 2812-2897, applied to the state `ws1` produced by
`targetPhase1`). -/
def targetPhase3 (flags : WellFlagCfg) (cdistr : List ℚ) (wt : WellType) (g : ℕ → ℚ)
    (xvar1 : ℚ) (solventRate wsolvent : ℚ) (ws1 : WellStateW) : WellStateW :=
  let tot := sum3 (fun p => g p * ws1.rates.getD p 0)
  if qabs tot > 0 then
    { ws1 with
      xvar := xvar1
      fw := if flags.activeWater then g 0 * ws1.rates.getD 0 0 / tot else ws1.fw
      fg := if flags.activeGas then g 2 * (ws1.rates.getD 2 0 - solventRate) / tot else ws1.fg
      fs := if flags.hasSolvent then g 2 * solventRate / tot else ws1.fs }
  else
    match wt with
    | .injector =>
      { ws1 with
        xvar := xvar1
        fw := if flags.activeWater then (if 0 < cdistr.getD 0 0 then 1 else 0) else ws1.fw
        fg := if flags.activeGas then (if 0 < cdistr.getD 2 0 then 1 - wsolvent else 0)
              else ws1.fg
        fs := if flags.hasSolvent ∧ 0 < cdistr.getD 2 0 then wsolvent else ws1.fs }
    | .producer =>
      { ws1 with
        xvar := xvar1
        fw := if flags.activeWater then 1/3 else ws1.fw
        fg := if flags.activeGas then 1/3 else ws1.fg }

/-- `updateWellStateWithTarget(wc, current, well_index, xw)`: re-initialize
the well state from the target of the control with index `idx`. `solventRate`
stands for `xw.solventWellRate(well_index)` and `wsolvent` for
`wsolvent(well_index)` (both `0` without solvent). -/
def updateWellStateWithTarget (flags : WellFlagCfg) (wcfg : WellCfg) (vfpBhp : ℚ)
    (solventRate wsolvent : ℚ) (idx : ℕ) (ws : WellStateW) : WellStateW :=
  let c := wcfg.ctrls.getD idx defaultCtrl
  let ws1 := targetPhase1 c.ctype c.target c.distr wcfg.wtype vfpBhp ws
  -- g = {1,1,0.01}, replaced by distr for RESERVOIR_RATE
  let g : ℕ → ℚ := fun p =>
    if c.ctype = .reservoirRate then c.distr.getD p 0 else gDefault.getD p 1
  -- wellSolutions[XvarWell]
  let xvar1 :=
    match c.ctype with
    | .thp | .bhp =>
      match wcfg.wtype with
      | .injector => sum3 (fun p => ws1.rates.getD p 0 * wcfg.compFrac.getD p 0)
      | .producer => sum3 (fun p => g p * ws1.rates.getD p 0)
    | .reservoirRate | .surfaceRate => ws1.bhp
  targetPhase3 flags c.distr wcfg.wtype g xvar1 solventRate wsolvent ws1

/-- Modelled from the spec: `wellhelpers::constraintBroken` (declared in
opm-core's well helpers, whose source is not part of this repository; only
its call site in `updateWellControls` is under `src/`). Per the spec a
constraint is broken when its physical bound is violated — "BHP below/above
limit, rate above target": for a producer, pressure constraints are broken
when the simulated pressure falls below the limit, for an injector when it
rises above it; rate constraints are broken when the magnitude of the
distribution-weighted rate exceeds the target. -/
def constraintBroken (wt : WellType) (bhp thp : ℚ) (rates : List ℚ) (c : WellCtrl) : Bool :=
  match c.ctype, wt with
  | .bhp, .producer => decide (bhp < c.target)
  | .bhp, .injector => decide (bhp > c.target)
  | .thp, .producer => decide (thp < c.target)
  | .thp, .injector => decide (thp > c.target)
  | .surfaceRate, _ => decide (qabs (dot3 c.distr rates) > c.target)
  | .reservoirRate, _ => decide (qabs (dot3 c.distr rates) > c.target)

/-- The scan of `updateWellControls` over the control list: starting at
`ctrl_index = 0`, skip the currently active control, and stop at the first
index whose constraint is broken (`n` is the number of indices still to
inspect). -/
def firstBrokenFrom (broken : ℕ → Bool) (current : ℕ) : ℕ → ℕ → Option ℕ
  | 0, _ => none
  | n + 1, i =>
    if i ≠ current ∧ broken i = true then some i
    else firstBrokenFrom broken current n (i + 1)

/-- The per-well body of `updateWellControls` (group control inactive): scan
for the first broken constraint; when one is found at index `i`, make it the
current control and re-initialize the well state from its target via
`updateWellStateWithTarget`. -/
def updateWellControlsWell (flags : WellFlagCfg) (wcfg : WellCfg)
    (vfpBhp solventRate wsolvent : ℚ) (ws : WellStateW) : WellStateW :=
  let broken : ℕ → Bool := fun i =>
    constraintBroken wcfg.wtype ws.bhp ws.thp ws.rates (wcfg.ctrls.getD i defaultCtrl)
  match firstBrokenFrom broken ws.currentCtrl wcfg.ctrls.length 0 with
  | some i =>
    updateWellStateWithTarget flags wcfg vfpBhp solventRate wsolvent i
      { ws with currentCtrl := i }
  | none => ws

lemma targetPhase1_currentCtrl (ct : CtrlType) (target : ℚ) (distr : List ℚ)
    (wt : WellType) (vfpBhp : ℚ) (ws : WellStateW) :
    (targetPhase1 ct target distr wt vfpBhp ws).currentCtrl = ws.currentCtrl := by
  unfold targetPhase1
  cases ct <;> cases wt <;> simp only <;> split <;> rfl

lemma targetPhase3_currentCtrl (flags : WellFlagCfg) (cdistr : List ℚ) (wt : WellType)
    (g : ℕ → ℚ) (xvar1 solventRate wsolvent : ℚ) (ws1 : WellStateW) :
    (targetPhase3 flags cdistr wt g xvar1 solventRate wsolvent ws1).currentCtrl
      = ws1.currentCtrl := by
  simp only [targetPhase3]
  split
  · rfl
  · cases wt <;> rfl

lemma updateWellStateWithTarget_currentCtrl (flags : WellFlagCfg) (wcfg : WellCfg)
    (vfpBhp solventRate wsolvent : ℚ) (idx : ℕ) (ws : WellStateW) :
    (updateWellStateWithTarget flags wcfg vfpBhp solventRate wsolvent idx ws).currentCtrl
      = ws.currentCtrl := by
  unfold updateWellStateWithTarget
  rw [targetPhase3_currentCtrl, targetPhase1_currentCtrl]

lemma firstBrokenFrom_eq_some (broken : ℕ → Bool) (current : ℕ) :
    ∀ (n start i : ℕ), start ≤ i → i < start + n → i ≠ current → broken i = true →
      (∀ j, start ≤ j → j < i → j ≠ current → broken j = false) →
      firstBrokenFrom broken current n start = some i := by
  intro n
  induction n with
  | zero =>
    intro start i h1 h2 _ _ _
    omega
  | succ n ih =>
    intro start i h1 h2 hne hb hmin
    unfold firstBrokenFrom
    by_cases hs : start = i
    · subst hs
      rw [if_pos ⟨hne, hb⟩]
    · have hlt : start < i := lt_of_le_of_ne h1 hs
      have hcond : ¬ (start ≠ current ∧ broken start = true) := by
        rintro ⟨hc1, hc2⟩
        rw [hmin start le_rfl hlt hc1] at hc2
        exact Bool.false_ne_true hc2
      rw [if_neg hcond]
      exact ih (start + 1) i hlt (by omega) hne hb
        (fun j hj1 hj2 hj3 => hmin j (by omega) hj2 hj3)

/-- C7: when the first violated constraint (in index order, skipping the
currently active control) of a well is at index `i`, `updateWellControls`
switches the well's current control to `i` — first-violated-wins — and
re-initializes the well state from that control's target via
`updateWellStateWithTarget`. -/
theorem updateWellControls_first_violated (flags : WellFlagCfg) (wcfg : WellCfg)
    (vfpBhp solventRate wsolvent : ℚ) (ws : WellStateW) (i : ℕ)
    (hi : i < wcfg.ctrls.length) (hne : i ≠ ws.currentCtrl)
    (hb : constraintBroken wcfg.wtype ws.bhp ws.thp ws.rates
      (wcfg.ctrls.getD i defaultCtrl) = true)
    (hmin : ∀ j, j < i → j ≠ ws.currentCtrl →
      constraintBroken wcfg.wtype ws.bhp ws.thp ws.rates
        (wcfg.ctrls.getD j defaultCtrl) = false) :
    updateWellControlsWell flags wcfg vfpBhp solventRate wsolvent ws
      = updateWellStateWithTarget flags wcfg vfpBhp solventRate wsolvent i
          { ws with currentCtrl := i }
    ∧ (updateWellControlsWell flags wcfg vfpBhp solventRate wsolvent ws).currentCtrl = i := by
  have hscan : firstBrokenFrom
      (fun k => constraintBroken wcfg.wtype ws.bhp ws.thp ws.rates
        (wcfg.ctrls.getD k defaultCtrl)) ws.currentCtrl wcfg.ctrls.length 0 = some i := by
    exact firstBrokenFrom_eq_some _ ws.currentCtrl wcfg.ctrls.length 0 i
      (Nat.zero_le i) (by omega) hne hb (fun j _ hj hjc => hmin j hj hjc)
  have heq : updateWellControlsWell flags wcfg vfpBhp solventRate wsolvent ws
      = updateWellStateWithTarget flags wcfg vfpBhp solventRate wsolvent i
          { ws with currentCtrl := i } := by
    simp only [updateWellControlsWell]
    rw [hscan]
  refine ⟨heq, ?_⟩
  rw [heq, updateWellStateWithTarget_currentCtrl]

/-- Witness for C7 — the spec's scenario: a producer with constraint list
`[BHP(limit 100), SURFACE_RATE(target 50)]` currently on `SURFACE_RATE`
(index 1) whose simulated BHP `90` has fallen below the limit: after
`updateWellControls` the current control is the BHP constraint's index `0`
and the well state is re-initialized with `bhp = 100`, the BHP target. -/
theorem updateWellControls_first_violated_witness :
    (updateWellControlsWell ⟨true, true, false, 1/5, 1⟩
        ⟨WellType.producer, [⟨CtrlType.bhp, 100, [0, 1, 0]⟩,
          ⟨CtrlType.surfaceRate, 50, [0, 1, 0]⟩], [0, 0, 0]⟩ 0 0 0
        ⟨100000, 1/4, 1/4, 0, 90, 0, [-10, -20, -5], 1⟩).currentCtrl = 0
    ∧ (updateWellControlsWell ⟨true, true, false, 1/5, 1⟩
        ⟨WellType.producer, [⟨CtrlType.bhp, 100, [0, 1, 0]⟩,
          ⟨CtrlType.surfaceRate, 50, [0, 1, 0]⟩], [0, 0, 0]⟩ 0 0 0
        ⟨100000, 1/4, 1/4, 0, 90, 0, [-10, -20, -5], 1⟩).bhp = 100 := by
  have h := updateWellControls_first_violated ⟨true, true, false, 1/5, 1⟩
    ⟨WellType.producer, [⟨CtrlType.bhp, 100, [0, 1, 0]⟩,
      ⟨CtrlType.surfaceRate, 50, [0, 1, 0]⟩], [0, 0, 0]⟩ 0 0 0
    ⟨100000, 1/4, 1/4, 0, 90, 0, [-10, -20, -5], 1⟩ 0
    (by norm_num)
    (by norm_num)
    (by norm_num [constraintBroken])
    (by omega)
  refine ⟨h.2, ?_⟩
  rw [h.1]
  simp +decide [updateWellStateWithTarget, targetPhase1, targetPhase3, defaultCtrl,
    gDefault, sum3, dot3, countPos, qabs]
  split <;> (try split) <;> rfl

/-! ## Cross-flow and perforation flux (`allow_cross_flow`, `computeWellFlux`)

Embeds `allow_cross_flow` (`StandardWellsDense_impl.hpp`, lines 421-450) and
`computeWellFlux` (lines 843-960) for the three-phase configuration (water,
oil, gas all active, no solvent). `computeWellFlux` receives the drawdown
data of one perforation; the "do nothing" early returns leave the caller's
`cq_s` (passed in as `cq0`) untouched. -/

/-- Per-component values for one perforation (water, oil, gas). -/
structure Comp3 where
  w : ℚ
  o : ℚ
  g : ℚ
deriving DecidableEq

/-- The fatal condition `d.value() == 0` (`1 - Rv·Rs = 0`) in the injecting
branch. -/
inductive FluxError
  | zeroDvalue
deriving DecidableEq

/-- `allow_cross_flow(w, ebosSimulator)`: `true` when the well's declared
flag allows cross flow; otherwise scan the perforations and return `false`
as soon as one flows in the well's declared direction (negative drawdown for
an injector, positive for a producer), `true` when none does. -/
def allow_cross_flow (allowCf : Bool) (wt : WellType) (drawdowns : List ℚ) : Bool :=
  if allowCf then true
  else
    drawdowns.all fun dd =>
      !(decide (dd < 0) && decide (wt = WellType.injector))
      && !(decide (dd > 0) && decide (wt = WellType.producer))

/-- `computeWellFlux(w, Tw, intQuants, mob, bhp, cdp, allow_cf, cq_s)` for
one perforation: the producing branch (`drawdown > 0`) uses per-component
mobility with the `Rs`/`Rv` cross terms, the injecting branch uses total
mobility and the volume-ratio apportioning; in each branch, when cross flow
is not allowed and the well flows against its declared type, the function
returns with `cq_s` untouched. -/
def computeWellFlux (wt : WellType) (allowCf : Bool) (Tw : ℚ) (mob b cmix : Comp3)
    (pressure bhp cdp rs rv : ℚ) (cq0 : Comp3) : Except FluxError Comp3 :=
  let wellPressure := bhp + cdp
  let drawdown := pressure - wellPressure
  if drawdown > 0 then
    -- producing perforation
    if allowCf = false ∧ wt = WellType.injector then .ok cq0
    else
      let cqsW := b.w * (-(Tw * (mob.w * drawdown)))
      let cqsO := b.o * (-(Tw * (mob.o * drawdown)))
      let cqsG := b.g * (-(Tw * (mob.g * drawdown)))
      .ok ⟨cqsW, cqsO + rv * cqsG, cqsG + rs * cqsO⟩
  else
    -- injecting perforation
    if allowCf = false ∧ wt = WellType.producer then .ok cq0
    else
      let totalMob := mob.w + mob.o + mob.g
      let cqt := -(Tw * (totalMob * drawdown))
      let dval := 1 - rv * rs
      if dval = 0 then .error .zeroDvalue
      else
        let volRat := cmix.w / b.w + ((cmix.o - rv * cmix.g) / dval) / b.o
          + ((cmix.g - rs * cmix.o) / dval) / b.g
        let cqtIs := cqt / volRat
        .ok ⟨cmix.w * cqtIs, cmix.o * cqtIs, cmix.g * cqtIs⟩

/-- C10: for a well whose declared allow-cross-flow flag is `false`,
`allow_cross_flow` returns `true` exactly when no perforation flows in the
well's declared direction — for an injector, when no perforation has
negative drawdown; for a producer, when no perforation has positive
drawdown. Consequently a (declared-flag-`false`) injector in which every
perforation cross-flows (`drawdown > 0` everywhere) is treated as if cross
flow were allowed, and `computeWellFlux`, called with the resulting
`allow_cf = true`, computes a nonzero flux (negative water component) on
such a perforation instead of zeroing it. -/
theorem allow_cross_flow_spec (ds : List ℚ) :
    (allow_cross_flow false WellType.injector ds = true ↔ ∀ dd ∈ ds, ¬ dd < 0)
    ∧ (allow_cross_flow false WellType.producer ds = true ↔ ∀ dd ∈ ds, ¬ dd > 0)
    ∧ (∀ (Tw : ℚ) (mob b cmix : Comp3) (pressure bhp cdp rs rv : ℚ) (c : Comp3),
        (∀ dd ∈ ds, 0 < dd) →
        0 < pressure - (bhp + cdp) → 0 < Tw → 0 < mob.w → 0 < b.w →
        allow_cross_flow false WellType.injector ds = true ∧
        (computeWellFlux WellType.injector
            (allow_cross_flow false WellType.injector ds) Tw mob b cmix
            pressure bhp cdp rs rv ⟨0, 0, 0⟩ = .ok c → c.w < 0)) := by
  have hinj : allow_cross_flow false WellType.injector ds = true ↔ ∀ dd ∈ ds, ¬ dd < 0 := by
    unfold allow_cross_flow
    simp [List.all_eq_true]
  have hprod : allow_cross_flow false WellType.producer ds = true ↔ ∀ dd ∈ ds, ¬ dd > 0 := by
    unfold allow_cross_flow
    simp [List.all_eq_true]
  refine ⟨hinj, hprod, ?_⟩
  intro Tw mob b cmix pressure bhp cdp rs rv c hall hdd hTw hmob hb
  have hacf : allow_cross_flow false WellType.injector ds = true :=
    hinj.mpr fun dd hd => not_lt.mpr (hall dd hd).le
  refine ⟨hacf, ?_⟩
  rw [hacf]
  unfold computeWellFlux
  simp only
  rw [if_pos hdd, if_neg (by rintro ⟨h1, _⟩; simp at h1)]
  intro hok
  injection hok with h
  rw [← h]
  show b.w * (-(Tw * (mob.w * (pressure - (bhp + cdp))))) < 0
  have hX : 0 < Tw * (mob.w * (pressure - (bhp + cdp))) := mul_pos hTw (mul_pos hmob hdd)
  have hbX : 0 < b.w * (Tw * (mob.w * (pressure - (bhp + cdp)))) := mul_pos hb hX
  linarith

/-- Witness for C10: an injector with declared flag `false` whose two
perforations both have positive drawdown (full cross flow) — the computed
flux has a negative water component. -/
theorem allow_cross_flow_spec_witness :
    allow_cross_flow false WellType.injector [1, 2] = true
    ∧ ∀ c : Comp3, computeWellFlux WellType.injector
        (allow_cross_flow false WellType.injector [1, 2]) 1 ⟨1, 1, 1⟩ ⟨1, 1, 1⟩ ⟨0, 0, 1⟩
        10 5 2 0 0 ⟨0, 0, 0⟩ = .ok c → c.w < 0 := by
  constructor
  · exact ((allow_cross_flow_spec [1, 2]).1).mpr (by norm_num)
  · intro c
    exact (((allow_cross_flow_spec [1, 2]).2.2 1 ⟨1, 1, 1⟩ ⟨1, 1, 1⟩ ⟨0, 0, 1⟩
      10 5 2 0 0 c (by norm_num) (by norm_num) (by norm_num) (by norm_num)
      (by norm_num)).2)

/-! ## Full well-state update and the converged branch of `nonlinearIteration`

The control-dependent part of `updateWellState`
(`StandardWellsDense_impl.hpp`, lines 1434-1562) and the trailing THP loop
(lines 1565-1632), composed with the fraction update embedded above; then
the converged branch of `nonlinearIteration` (`BlackoilModelEbos.hpp`, lines
323-770), whose two numerical-differentiation loops re-linearize the
simulator at perturbed states and apply `updateWellState(dw, well_state)` to
the live well state. -/

/-- The per-well entries of a well update vector `dwells[w]`:
`XvarWell`, `WFrac`, `GFrac`, `SFrac`. -/
structure WellDelta where
  dXvar : ℚ
  dW : ℚ
  dG : ℚ
  dS : ℚ
deriving DecidableEq

/-- The control-dependent part of `updateWellState` for one well: store the
renormalized fractions, then interpret the first well variable according to
the current control (BHP/THP: plain update, rates from `comp_frac` or the
`g`-divided fractions; SURFACE/RESERVOIR_RATE: `dBHPLimit`-limited update
floored at `1e5`, `bhp := xvar`, rates toward the target). The THP branch's
VFP evaluation is the parameter `vfpBhp`. -/
def updateWellStateWell (flags : WellFlagCfg) (wcfg : WellCfg) (vfpBhp : ℚ)
    (d : WellDelta) (ws : WellStateW) : WellStateW :=
  let F := updateWellFractions flags d.dW d.dG d.dS ws.fw ws.fg ws.fs
  let fw1 := if flags.activeWater then F.fw else ws.fw
  let fg1 := if flags.activeGas then F.fg else ws.fg
  let fs1 := if flags.hasSolvent then F.fs else ws.fs
  -- F[Gas] += F_solvent
  let fgLoc := if flags.hasSolvent then F.fg + F.fs else F.fg
  let c := wcfg.ctrls.getD ws.currentCtrl defaultCtrl
  let fAt : ℕ → ℚ := fun p => if p = 0 then F.fw else if p = 1 then F.fo else fgLoc
  -- RESERVOIR_RATE: F[p] /= distr[p] (0 where distr[p] = 0); else F[p] /= g[p]
  let fdiv : ℕ → ℚ :=
    if c.ctype = CtrlType.reservoirRate then
      fun p => if 0 < c.distr.getD p 0 then fAt p / c.distr.getD p 0 else 0
    else
      fun p => fAt p / gDefault.getD p 1
  match c.ctype with
  | .thp | .bhp =>
    let xvar1 := ws.xvar - d.dXvar
    let rates1 :=
      match wcfg.wtype with
      | .injector => mkRates3 fun p => wcfg.compFrac.getD p 0 * xvar1
      | .producer => mkRates3 fun p => xvar1 * fdiv p
    let bhp1 := if c.ctype = CtrlType.thp then vfpBhp else ws.bhp
    { ws with xvar := xvar1, fw := fw1, fg := fg1, fs := fs1, rates := rates1, bhp := bhp1 }
  | .surfaceRate | .reservoirRate =>
    let dx1 := clampAbs d.dXvar (qabs ws.xvar * flags.dBHPLimit)
    let xvar1 := qmax (ws.xvar - dx1) 100000
    let rates1 :=
      if c.ctype = CtrlType.surfaceRate then
        match wcfg.wtype with
        | .producer =>
          let fTarget := sum3 (fun p => c.distr.getD p 0 * fdiv p)
          mkRates3 fun p => fdiv p * c.target / fTarget
        | .injector => mkRates3 fun p => wcfg.compFrac.getD p 0 * c.target
      else
        mkRates3 fun p => fdiv p * c.target
    { ws with xvar := xvar1, bhp := xvar1, fw := fw1, fg := fg1, fs := fs1, rates := rates1 }

/-- The trailing THP loop of `updateWellState`: find the first THP
constraint; if the well is currently on it set `thp` to its target, else to
the external VFP evaluation `vfpThp`; without a THP constraint, `thp := 0`. -/
def updateWellStateThp (wcfg : WellCfg) (vfpThp : ℚ) (ws : WellStateW) : WellStateW :=
  match wcfg.ctrls.findIdx? (fun c => decide (c.ctype = CtrlType.thp)) with
  | some i =>
    if ws.currentCtrl = i then { ws with thp := (wcfg.ctrls.getD i defaultCtrl).target }
    else { ws with thp := vfpThp }
  | none => { ws with thp := 0 }

/-- `updateWellState(dwells, well_state)`: the per-well updates (wells are
independent: `xvar_well_old` is captured before the loop and each well only
reads its own entries), then the THP loop. -/
def updateWellState (flags : WellFlagCfg) (wcfgs : List WellCfg) (vfpBhp vfpThp : ℚ)
    (dwells : List WellDelta) (wss : List WellStateW) : List WellStateW :=
  List.zipWith (fun (cd : WellCfg × WellDelta) ws =>
      updateWellStateThp cd.1 vfpThp (updateWellStateWell flags cd.1 vfpBhp cd.2 ws))
    (wcfgs.zip dwells) wss

/-- `pert_sizes2 = {-0.01, -0.01, -10000}` (converged-branch well loop). -/
def pertSizes2 : ℕ → ℚ := fun t => if t = 2 then -10000 else -1/100

/-- `pert_sizes = {-0.000001, -10}` (converged-branch cell loop). -/
def pertSizes1 : ℕ → ℚ := fun t => if t = 1 then -10 else -1/1000000

/-- `(i == 0) ? -pert/2 : pert/2`. -/
def pertVal (pert : ℚ) (i : ℕ) : ℚ := if i = 0 then -pert/2 else pert/2

/-- The single nonzero entry `dw[w][t]` of a perturbation vector
(`t`: `0 = XvarWell`, `1 = WFrac`, `2 = GFrac`). -/
def dwEntry (t i : ℕ) : WellDelta :=
  ⟨if t = 0 then pertVal (pertSizes2 t) i else 0,
   if t = 1 then pertVal (pertSizes2 t) i else 0,
   if t = 2 then pertVal (pertSizes2 t) i else 0, 0⟩

/-- The two-well perturbation vector `dw`, zero except for the entry
`dw[w][t]`. -/
def dwFor (w t i : ℕ) : List WellDelta :=
  [if w = 0 then dwEntry t i else ⟨0, 0, 0, 0⟩, if w = 1 then dwEntry t i else ⟨0, 0, 0, 0⟩]

/-- The iteration order of the converged-branch well loop: wells 0..1
(outer), state types 0..2, central-difference index 0..1 (inner). -/
def convergedBranchSteps : List (ℕ × ℕ × ℕ) :=
  [(0,0,0),(0,0,1),(0,1,0),(0,1,1),(0,2,0),(0,2,1),
   (1,0,0),(1,0,1),(1,1,0),(1,1,1),(1,2,0),(1,2,1)]

/-- The cell loop of the converged branch: cells 0..8, state types 0..1,
central-difference index 0..1. -/
def cellSteps : List (ℕ × ℕ × ℕ) :=
  (List.range 9).flatMap fun c => (List.range 2).flatMap fun t =>
    (List.range 2).map fun i => (c, t, i)

/-- The well-state mutations performed by the converged branch of
`nonlinearIteration`: each iteration of the second numerical-differentiation
loop calls `wellModel().updateWellState(dw, well_state)` on the live
`well_state`, and nothing restores it (`orgWellState` is copied at lines
332-333 but never used). -/
def convergedBranchWellLoop (flags : WellFlagCfg) (wcfgs : List WellCfg)
    (vfpBhp vfpThp : ℚ) (wss : List WellStateW) : List WellStateW :=
  convergedBranchSteps.foldl
    (fun cur s => updateWellState flags wcfgs vfpBhp vfpThp (dwFor s.1 s.2.1 s.2.2) cur) wss

/-- The converged branch of `nonlinearIteration` as it acts on the tracked
state. `perturbRes c t δ res` stands for `updateState(dx, tmpResState)`
applied to a copy of the reservoir state with the single entry
`dx[c][t] = δ`; `linAt res ws cache` stands for the cache effect of
`convertInput; invalidateIntensiveQuantitiesCache(0); linearize();
convertResults; wellModel().assemble(...)` at the given states. The first
loop only touches copies of the reservoir state (the cache retains the
effect); the second loop additionally mutates the live well state. -/
def convergedBranch {Res Cache : Type} (flags : WellFlagCfg) (wcfgs : List WellCfg)
    (vfpBhp vfpThp : ℚ) (perturbRes : ℕ → ℕ → ℚ → Res → Res)
    (linAt : Res → List WellStateW → Cache → Cache)
    (res : Res) (wss : List WellStateW) (cache : Cache) :
    Res × List WellStateW × Cache :=
  let cache1 := cellSteps.foldl
    (fun ca s => linAt (perturbRes s.1 s.2.1 (pertVal (pertSizes1 s.2.1) s.2.2) res) wss ca)
    cache
  let fin := convergedBranchSteps.foldl
    (fun (cur : List WellStateW × Cache) s =>
      let tmpWellState := cur.1
      (updateWellState flags wcfgs vfpBhp vfpThp (dwFor s.1 s.2.1 s.2.2) cur.1,
       linAt res tmpWellState cur.2))
    (wss, cache1)
  (res, fin.1, fin.2)

lemma foldl_pair_fst {α β γ : Type _} (f : α → γ → α) (gf : α → β → γ → β) :
    ∀ (l : List γ) (a : α) (b : β),
      (l.foldl (fun p s => (f p.1 s, gf p.1 p.2 s)) (a, b)).1 = l.foldl f a := by
  intro l
  induction l with
  | nil => intro a b; rfl
  | cons x xs ih => intro a b; exact ih (f a x) (gf a b x)

/-- C1, amended: the converged branch of `nonlinearIteration` is not a no-op
— it runs a numerical-Jacobian verification. It leaves the reservoir state
itself unchanged (all `updateState` perturbations act on copies), but its
well loop applies the composed `updateWellState` perturbation sequence to
the live well state (see the counterexample for a state it actually
changes), and the simulator's cached solution/residual is left re-linearized
at perturbed states. -/
theorem nonlinearIteration_converged_effects {Res Cache : Type} (flags : WellFlagCfg)
    (wcfgs : List WellCfg) (vfpBhp vfpThp : ℚ) (perturbRes : ℕ → ℕ → ℚ → Res → Res)
    (linAt : Res → List WellStateW → Cache → Cache)
    (res : Res) (wss : List WellStateW) (cache : Cache) :
    (convergedBranch flags wcfgs vfpBhp vfpThp perturbRes linAt res wss cache).1 = res
    ∧ (convergedBranch flags wcfgs vfpBhp vfpThp perturbRes linAt res wss cache).2.1
      = convergedBranchWellLoop flags wcfgs vfpBhp vfpThp wss := by
  refine ⟨rfl, ?_⟩
  exact foldl_pair_fst
    (fun a s => updateWellState flags wcfgs vfpBhp vfpThp (dwFor s.1 s.2.1 s.2.2) a)
    (fun a b _ => linAt res a b) convergedBranchSteps wss
    (cellSteps.foldl
      (fun ca s => linAt (perturbRes s.1 s.2.1 (pertVal (pertSizes1 s.2.1) s.2.2) res) wss ca)
      cache)

/-- The concrete scenario refuting C1: two identical producers under a
single SURFACE_RATE control. -/
def flagsC1 : WellFlagCfg := ⟨true, true, false, 1/5, 1⟩

def wcfgC1 : WellCfg := ⟨WellType.producer, [⟨CtrlType.surfaceRate, 50, [0, 1, 0]⟩], [0, 0, 0]⟩

def wsC1 : WellStateW := ⟨100000, 1/5, 1/5, 0, 100000, 0, [-10, -20, -5], 0⟩

/-- The well states reached during the converged-branch well loop on the
concrete scenario (computed by the `updateWellState` embedding): after the
first call (`wsC1a`), after the non-cancelling `XvarWell` pair (`wsC1b`),
and the transient states of the `WFrac`/`GFrac` perturbations
(`wsC1c`, `wsC1d`). -/
def wsC1a : WellStateW := ⟨100000, 1/5, 1/5, 0, 100000, 0, [50/3, 50, 5000/3], 0⟩

def wsC1b : WellStateW :=
  ⟨20000001/200, 1/5, 1/5, 0, 20000001/200, 0, [50/3, 50, 5000/3], 0⟩

def wsC1c : WellStateW :=
  ⟨20000001/200, 39/200, 1/5, 0, 20000001/200, 0, [1950/121, 50, 200000/121], 0⟩

def wsC1d : WellStateW := ⟨20000001/200, 1/5, 0, 0, 20000001/200, 0, [25/2, 50, 0], 0⟩

set_option maxHeartbeats 1600000 in
/-- C1, counterexample: running the well loop of the converged branch on a
concrete two-producer well state changes it — the `SURFACE_RATE` branch's
`max(xvar - dx, 1e5)` floor makes the `+pert/2` / `-pert/2` pair of
`updateWellState` calls non-cancelling, leaving `xvar = 100000.005 ≠ 100000`
(and the first call already overwrites the rates) — so the well state is NOT
left unchanged by the remainder of a converged `nonlinearIteration` call. -/
theorem nonlinearIteration_converged_mutates_well_state :
    convergedBranchWellLoop flagsC1 [wcfgC1, wcfgC1] 0 0 [wsC1, wsC1] ≠ [wsC1, wsC1] := by
  have h1 : updateWellState flagsC1 [wcfgC1, wcfgC1] 0 0 (dwFor 0 0 0) [wsC1, wsC1]
      = [wsC1a, wsC1a] := by
    simp +decide [updateWellState, updateWellStateWell, updateWellStateThp,
      updateWellFractions, renormWater, renormGas, renormOil, clampAbs, qabs, qmin, qmax,
      flagsC1, wcfgC1, wsC1, wsC1a, wsC1b, wsC1c, wsC1d, defaultCtrl, gDefault, sum3,
      dwFor, dwEntry, pertVal, pertSizes2, mkRates3, List.zipWith_cons_cons,
      List.zipWith_nil_right, List.zip_cons_cons, List.zip_nil_right, List.findIdx?_cons]
    norm_num
  have h2 : updateWellState flagsC1 [wcfgC1, wcfgC1] 0 0 (dwFor 0 0 1) [wsC1a, wsC1a]
      = [wsC1b, wsC1a] := by
    simp +decide [updateWellState, updateWellStateWell, updateWellStateThp,
      updateWellFractions, renormWater, renormGas, renormOil, clampAbs, qabs, qmin, qmax,
      flagsC1, wcfgC1, wsC1, wsC1a, wsC1b, wsC1c, wsC1d, defaultCtrl, gDefault, sum3,
      dwFor, dwEntry, pertVal, pertSizes2, mkRates3, List.zipWith_cons_cons,
      List.zipWith_nil_right, List.zip_cons_cons, List.zip_nil_right, List.findIdx?_cons]
    norm_num
  have h3 : updateWellState flagsC1 [wcfgC1, wcfgC1] 0 0 (dwFor 0 1 0) [wsC1b, wsC1a]
      = [wsC1c, wsC1a] := by
    simp +decide [updateWellState, updateWellStateWell, updateWellStateThp,
      updateWellFractions, renormWater, renormGas, renormOil, clampAbs, qabs, qmin, qmax,
      flagsC1, wcfgC1, wsC1, wsC1a, wsC1b, wsC1c, wsC1d, defaultCtrl, gDefault, sum3,
      dwFor, dwEntry, pertVal, pertSizes2, mkRates3, List.zipWith_cons_cons,
      List.zipWith_nil_right, List.zip_cons_cons, List.zip_nil_right, List.findIdx?_cons]
    norm_num
  have h4 : updateWellState flagsC1 [wcfgC1, wcfgC1] 0 0 (dwFor 0 1 1) [wsC1c, wsC1a]
      = [wsC1b, wsC1a] := by
    simp +decide [updateWellState, updateWellStateWell, updateWellStateThp,
      updateWellFractions, renormWater, renormGas, renormOil, clampAbs, qabs, qmin, qmax,
      flagsC1, wcfgC1, wsC1, wsC1a, wsC1b, wsC1c, wsC1d, defaultCtrl, gDefault, sum3,
      dwFor, dwEntry, pertVal, pertSizes2, mkRates3, List.zipWith_cons_cons,
      List.zipWith_nil_right, List.zip_cons_cons, List.zip_nil_right, List.findIdx?_cons]
    norm_num
  have h5 : updateWellState flagsC1 [wcfgC1, wcfgC1] 0 0 (dwFor 0 2 0) [wsC1b, wsC1a]
      = [wsC1d, wsC1a] := by
    simp +decide [updateWellState, updateWellStateWell, updateWellStateThp,
      updateWellFractions, renormWater, renormGas, renormOil, clampAbs, qabs, qmin, qmax,
      flagsC1, wcfgC1, wsC1, wsC1a, wsC1b, wsC1c, wsC1d, defaultCtrl, gDefault, sum3,
      dwFor, dwEntry, pertVal, pertSizes2, mkRates3, List.zipWith_cons_cons,
      List.zipWith_nil_right, List.zip_cons_cons, List.zip_nil_right, List.findIdx?_cons]
    norm_num
  have h6 : updateWellState flagsC1 [wcfgC1, wcfgC1] 0 0 (dwFor 0 2 1) [wsC1d, wsC1a]
      = [wsC1b, wsC1a] := by
    simp +decide [updateWellState, updateWellStateWell, updateWellStateThp,
      updateWellFractions, renormWater, renormGas, renormOil, clampAbs, qabs, qmin, qmax,
      flagsC1, wcfgC1, wsC1, wsC1a, wsC1b, wsC1c, wsC1d, defaultCtrl, gDefault, sum3,
      dwFor, dwEntry, pertVal, pertSizes2, mkRates3, List.zipWith_cons_cons,
      List.zipWith_nil_right, List.zip_cons_cons, List.zip_nil_right, List.findIdx?_cons]
    norm_num
  have h7 : updateWellState flagsC1 [wcfgC1, wcfgC1] 0 0 (dwFor 1 0 0) [wsC1b, wsC1a]
      = [wsC1b, wsC1a] := by
    simp +decide [updateWellState, updateWellStateWell, updateWellStateThp,
      updateWellFractions, renormWater, renormGas, renormOil, clampAbs, qabs, qmin, qmax,
      flagsC1, wcfgC1, wsC1, wsC1a, wsC1b, wsC1c, wsC1d, defaultCtrl, gDefault, sum3,
      dwFor, dwEntry, pertVal, pertSizes2, mkRates3, List.zipWith_cons_cons,
      List.zipWith_nil_right, List.zip_cons_cons, List.zip_nil_right, List.findIdx?_cons]
    norm_num
  have h8 : updateWellState flagsC1 [wcfgC1, wcfgC1] 0 0 (dwFor 1 0 1) [wsC1b, wsC1a]
      = [wsC1b, wsC1b] := by
    simp +decide [updateWellState, updateWellStateWell, updateWellStateThp,
      updateWellFractions, renormWater, renormGas, renormOil, clampAbs, qabs, qmin, qmax,
      flagsC1, wcfgC1, wsC1, wsC1a, wsC1b, wsC1c, wsC1d, defaultCtrl, gDefault, sum3,
      dwFor, dwEntry, pertVal, pertSizes2, mkRates3, List.zipWith_cons_cons,
      List.zipWith_nil_right, List.zip_cons_cons, List.zip_nil_right, List.findIdx?_cons]
    norm_num
  have h9 : updateWellState flagsC1 [wcfgC1, wcfgC1] 0 0 (dwFor 1 1 0) [wsC1b, wsC1b]
      = [wsC1b, wsC1c] := by
    simp +decide [updateWellState, updateWellStateWell, updateWellStateThp,
      updateWellFractions, renormWater, renormGas, renormOil, clampAbs, qabs, qmin, qmax,
      flagsC1, wcfgC1, wsC1, wsC1a, wsC1b, wsC1c, wsC1d, defaultCtrl, gDefault, sum3,
      dwFor, dwEntry, pertVal, pertSizes2, mkRates3, List.zipWith_cons_cons,
      List.zipWith_nil_right, List.zip_cons_cons, List.zip_nil_right, List.findIdx?_cons]
    norm_num
  have h10 : updateWellState flagsC1 [wcfgC1, wcfgC1] 0 0 (dwFor 1 1 1) [wsC1b, wsC1c]
      = [wsC1b, wsC1b] := by
    simp +decide [updateWellState, updateWellStateWell, updateWellStateThp,
      updateWellFractions, renormWater, renormGas, renormOil, clampAbs, qabs, qmin, qmax,
      flagsC1, wcfgC1, wsC1, wsC1a, wsC1b, wsC1c, wsC1d, defaultCtrl, gDefault, sum3,
      dwFor, dwEntry, pertVal, pertSizes2, mkRates3, List.zipWith_cons_cons,
      List.zipWith_nil_right, List.zip_cons_cons, List.zip_nil_right, List.findIdx?_cons]
    norm_num
  have h11 : updateWellState flagsC1 [wcfgC1, wcfgC1] 0 0 (dwFor 1 2 0) [wsC1b, wsC1b]
      = [wsC1b, wsC1d] := by
    simp +decide [updateWellState, updateWellStateWell, updateWellStateThp,
      updateWellFractions, renormWater, renormGas, renormOil, clampAbs, qabs, qmin, qmax,
      flagsC1, wcfgC1, wsC1, wsC1a, wsC1b, wsC1c, wsC1d, defaultCtrl, gDefault, sum3,
      dwFor, dwEntry, pertVal, pertSizes2, mkRates3, List.zipWith_cons_cons,
      List.zipWith_nil_right, List.zip_cons_cons, List.zip_nil_right, List.findIdx?_cons]
    norm_num
  have h12 : updateWellState flagsC1 [wcfgC1, wcfgC1] 0 0 (dwFor 1 2 1) [wsC1b, wsC1d]
      = [wsC1b, wsC1b] := by
    simp +decide [updateWellState, updateWellStateWell, updateWellStateThp,
      updateWellFractions, renormWater, renormGas, renormOil, clampAbs, qabs, qmin, qmax,
      flagsC1, wcfgC1, wsC1, wsC1a, wsC1b, wsC1c, wsC1d, defaultCtrl, gDefault, sum3,
      dwFor, dwEntry, pertVal, pertSizes2, mkRates3, List.zipWith_cons_cons,
      List.zipWith_nil_right, List.zip_cons_cons, List.zip_nil_right, List.findIdx?_cons]
    norm_num
  have hfinal : convergedBranchWellLoop flagsC1 [wcfgC1, wcfgC1] 0 0 [wsC1, wsC1]
      = [wsC1b, wsC1b] := by
    simp only [convergedBranchWellLoop, convergedBranchSteps, List.foldl_cons,
      List.foldl_nil, h1, h2, h3, h4, h5, h6, h7, h8, h9, h10, h11, h12]
  intro h
  rw [hfinal] at h
  have hx := congrArg (fun l => (l.getD 0 wsC1).xvar) h
  norm_num [wsC1b, wsC1, List.getD] at hx

end Ewoms
